import Mathlib

/-!
# Recipe repository (`src/repository/repository.go`)

A shallow embedding of the data-access layer of the recipe web service, and of
the standard-library routines its contract depends on (`strings.Split`,
`strconv.Atoi`, `time.Time.Format`, `time.Parse`, `database/sql` row scanning).

Go strings are byte sequences.  They are represented by `String` (sequences of
code points).  Every byte the embedded routines test for (`|`, `+`, `-`, the
decimal digits) is ASCII, and in UTF-8 an ASCII byte never occurs inside the
encoding of another code point, so scanning by code point and scanning by byte
meet the same delimiters and the same digits.  Where the Go code takes `len`,
the byte length `String.utf8ByteSize` is used.

Go `int` is taken to be 64 bits wide (`strconv.IntSize = 64`).
-/

/-! ## Package `strings` -/

namespace strings

/-- Go `strings.IndexByte(s, c)`: position of the first `c` in `s`; `none` is Go's `-1`.
`strings.Index` dispatches here when the separator is one byte long. -/
def IndexByte (c : Char) : List Char → Option Nat
  | [] => none
  | x :: xs => if x = c then some 0 else (IndexByte c xs).map (· + 1)

/-- Go `strings.Count(s, sep)` for a one-byte `sep`: the number of occurrences. -/
def Count (c : Char) : List Char → Nat
  | [] => 0
  | x :: xs => (if x = c then 1 else 0) + Count c xs

/-- The loop of Go `strings.genSplit(s, sep, 0, n)` for a one-byte `sep`.  The first
argument is `n - 1 - i`, the number of iterations the guard `i < n` still allows:
```go
for i < n {
    m := Index(s, sep)
    if m < 0 { break }
    a[i] = s[:m+sepSave]
    s = s[m+len(sep):]
    i++
}
a[i] = s
return a[:i+1]
```
-/
def genSplitLoop (sep : Char) : Nat → List Char → List (List Char)
  | 0, s => [s]
  | k + 1, s =>
    match IndexByte sep s with
    | none => [s]
    | some m => s.take m :: genSplitLoop sep k (s.drop (m + 1))

/-- Go `strings.genSplit(s, sep, 0, -1)` for a one-byte `sep`: room for
`n = Count(s, sep) + 1` pieces is made (the cap `n > len(s)+1` never applies), `n` is
decremented and the loop runs. -/
def genSplit (sep : Char) (s : List Char) : List (List Char) :=
  genSplitLoop sep (Count sep s) s

/-- Go `strings.Split(s, sep)` with a one-byte separator, the form `FetchRecipe` calls
(`strings.Split(ingredients, "|")`). -/
def Split (s : String) (sep : Char) : List String :=
  (genSplit sep s.data).map String.mk

/-- Go `strings.Join(elems, sep)` on character lists. -/
def joinChars (sep : Char) : List (List Char) → List Char
  | [] => []
  | [x] => x
  | x :: y :: rest => x ++ sep :: joinChars sep (y :: rest)

/-- Go `strings.Join(elems, sep)` with a one-byte separator: the stored form of a list of
ingredients or steps (the spec's "single delimited string"). -/
def Join (elems : List String) (sep : Char) : String :=
  String.mk (joinChars sep (elems.map String.data))

/-- The string `s` contains the byte `c` (Go `strings.ContainsRune(s, c)`). -/
def Contains (s : String) (c : Char) : Prop := c ∈ s.data

instance (s : String) (c : Char) : Decidable (Contains s c) := by
  unfold Contains; infer_instance

/-- The pieces of a character list between separators, by recursion on the list. -/
def pieces (sep : Char) : List Char → List (List Char)
  | [] => [[]]
  | x :: xs =>
    if x = sep then [] :: pieces sep xs
    else match pieces sep xs with
      | [] => [[x]]
      | p :: ps => (x :: p) :: ps

end strings

/-! ## Package `strconv` -/

namespace strconv

/-- The `Err` field of a Go `*strconv.NumError`. -/
inductive NumError
  | ErrSyntax
  | ErrRange
  deriving DecidableEq

/-- Go `strconv.IntSize` on a 64-bit target. -/
def intSize : Nat := 64

/-- The byte is one of `'0'..'9'`. -/
def isDigit (c : Char) : Bool := decide (48 ≤ c.toNat ∧ c.toNat ≤ 57)

/-- The value `c - '0'` of a digit byte. -/
def digitVal (c : Char) : Nat := c.toNat - 48

/-- The digit loop of the fast path of `Atoi`; `none` is `syntaxError`:
```go
n := 0
for _, ch := range []byte(s) {
    ch -= '0'
    if ch > 9 { return 0, syntaxError(fnAtoi, s0) }
    n = n*10 + int(ch)
}
```
-/
def atoiFastLoop : Nat → List Char → Option Nat
  | n, [] => some n
  | n, ch :: rest => if isDigit ch then atoiFastLoop (n * 10 + digitVal ch) rest else none

/-- The digit loop of Go `strconv.ParseUint(s, 10, 64)`.  A byte that is not a decimal
digit ends in `syntaxError` (a letter has value `d >= 10 = base`, any other byte takes the
`default` case); `n >= cutoff` and a wrapped or too large `n1` end in `rangeError` with
`maxVal`, before the remaining bytes are looked at. -/
def parseUintLoop (cutoff maxVal : Nat) : Nat → List Char → Nat × Option NumError
  | n, [] => (n, none)
  | n, c :: rest =>
    if isDigit c then
      if n ≥ cutoff then (maxVal, some .ErrRange)
      else
        let n10 := (n * 10) % 2 ^ 64
        let n1 := (n10 + digitVal c) % 2 ^ 64
        if n1 < n10 ∨ n1 > maxVal then (maxVal, some .ErrRange)
        else parseUintLoop cutoff maxVal n1 rest
    else (0, some .ErrSyntax)

/-- Go `strconv.ParseUint(s, 10, 0)`: `bitSize = 0` stands for `IntSize`,
`cutoff = maxUint64/10 + 1`, `maxVal = 1<<bitSize - 1`. -/
def ParseUint (s : List Char) : Nat × Option NumError :=
  if s = [] then (0, some .ErrSyntax)
  else parseUintLoop ((2 ^ 64 - 1) / 10 + 1) (2 ^ intSize - 1) 0 s

/-- Go `strconv.ParseInt(s, 10, 0)`. -/
def ParseInt (s : List Char) : Int × Option NumError :=
  match s with
  | [] => (0, some .ErrSyntax)
  | c :: rest =>
    let neg := decide (c = '-')
    let s1 := if c = '+' ∨ c = '-' then rest else c :: rest
    let (un, err) := ParseUint s1
    if err = some .ErrSyntax then (0, err)
    else
      let cutoff : Nat := 2 ^ (intSize - 1)
      if !neg && decide (un ≥ cutoff) then (((cutoff - 1 : Nat) : Int), some .ErrRange)
      else if neg && decide (un > cutoff) then (-(cutoff : Int), some .ErrRange)
      else (if neg then -(un : Int) else (un : Int), none)

/-- Go `strconv.Atoi(s)`: the value and the error (`none` is `nil`).  Strings of 1 to 18
bytes take the fast path, all others go through `ParseInt(s, 10, 0)`. -/
def Atoi (s : String) : Int × Option NumError :=
  let sLen := s.utf8ByteSize
  if 0 < sLen ∧ sLen < 19 then
    match s.data with
    | [] => (0, some .ErrSyntax)
    | c :: rest =>
      let digits := if c = '-' ∨ c = '+' then rest else c :: rest
      if digits = [] then (0, some .ErrSyntax)
      else match atoiFastLoop 0 digits with
        | none => (0, some .ErrSyntax)
        | some n => (if c = '-' then -(n : Int) else (n : Int), none)
  else ParseInt s.data

/-- Go `strconv.FormatInt(i, 10)`: the decimal form, with a minus sign for a negative
number. -/
def FormatInt (i : Int) : String :=
  if i < 0 then "-" ++ Nat.repr i.natAbs else Nat.repr i.natAbs

/-- Go `strconv.FormatBool(b)`. -/
def FormatBool (b : Bool) : String := if b then "true" else "false"

end strconv

/-! ## Package `time` -/

namespace time

/-- A Go `time.Time` as its accessor methods present it: the calendar date (`Date()`),
the clock (`Clock()`) and the offset east of UTC in seconds (`Zone()`), all taken in the
value's own location, and the nanoseconds within the second (`Nanosecond()`, 0 when not
given).  The value `time.Date(y, m, d, 0, 0, 0, 0, time.UTC)` of a date that exists is the
one presenting the fields `y`, `m`, `d`, midnight and offset 0. -/
structure Time where
  year : Int
  month : Nat
  day : Nat
  hour : Nat
  minute : Nat
  second : Nat
  offset : Int
  nanosecond : Nat := 0
  deriving DecidableEq

/-- The zero value `time.Time{}`: January 1, year 1, 00:00:00 UTC. -/
def zero : Time :=
  { year := 1, month := 1, day := 1, hour := 0, minute := 0, second := 0, offset := 0 }

/-- Go `time.isLeap(year)`. -/
def isLeap (year : Int) : Bool :=
  decide (year % 4 = 0 ∧ (year % 100 ≠ 0 ∨ year % 400 = 0))

/-- Go `time.daysIn(m, year)` for a month `1 ≤ m ≤ 12`. -/
def daysIn (m : Nat) (year : Int) : Nat :=
  if m = 2 ∧ isLeap year then 29
  else match m with
    | 1 => 31 | 2 => 28 | 3 => 31 | 4 => 30 | 5 => 31 | 6 => 30
    | 7 => 31 | 8 => 31 | 9 => 30 | 10 => 31 | 11 => 30 | 12 => 31
    | _ => 0

/-- The calendar fields are those of a date and a time of day that exist. -/
def Time.valid (t : Time) : Prop :=
  1 ≤ t.month ∧ t.month ≤ 12 ∧ 1 ≤ t.day ∧ t.day ≤ daysIn t.month t.year ∧
    t.hour < 24 ∧ t.minute < 60 ∧ t.second < 60

instance (t : Time) : Decidable t.valid := by
  unfold Time.valid; infer_instance

/-- The byte `'0' + d`. -/
def digitChar (d : Nat) : Char := Char.ofNat (48 + d)

/-- Go `time.appendInt(b, x, width)`, the bytes it appends: a minus sign for a negative
`x`, then the decimal form of `|x|` padded with leading zeros to `width` (with the two
short cuts for 2-digit and 4-digit fields). -/
def appendInt (x : Int) (width : Nat) : List Char :=
  let u := x.natAbs
  let sign := if x < 0 then ['-'] else []
  if width = 2 ∧ u < 100 then sign ++ [digitChar (u / 10), digitChar (u % 10)]
  else if width = 4 ∧ u < 10000 then
    sign ++ [digitChar (u / 1000), digitChar (u / 100 % 10), digitChar (u / 10 % 10),
      digitChar (u % 10)]
  else
    let ds := Nat.toDigits 10 u
    sign ++ List.replicate (width - ds.length) '0' ++ ds

/-- Go `Month.String()`: the English month name. -/
def monthName (m : Nat) : String :=
  match m with
  | 1 => "January" | 2 => "February" | 3 => "March" | 4 => "April" | 5 => "May"
  | 6 => "June" | 7 => "July" | 8 => "August" | 9 => "September" | 10 => "October"
  | 11 => "November" | 12 => "December"
  | n => "%!Month(" ++ toString n ++ ")"

/-- The zone field `Z07:00` of the RFC 3339 layout: `Z` for UTC, else sign, hours, colon,
minutes of the offset. -/
def appendZone (offset : Int) : List Char :=
  if offset = 0 then ['Z']
  else
    let zone := Int.tdiv offset 60
    let (sign, zone) := if zone < 0 then ('-', -zone) else ('+', zone)
    sign :: appendInt (Int.tdiv zone 60) 2 ++ ':' :: appendInt (Int.tmod zone 60) 2

/-- Go `t.Format(time.RFC3339)`, layout `"2006-01-02T15:04:05Z07:00"`. -/
def formatRFC3339 (t : Time) : List Char :=
  appendInt t.year 4 ++ '-' :: appendInt t.month 2 ++ '-' :: appendInt t.day 2 ++
    'T' :: appendInt t.hour 2 ++ ':' :: appendInt t.minute 2 ++ ':' :: appendInt t.second 2 ++
    appendZone t.offset

/-- Go `time.appendNano(b, nanosec, stdFracSecond9)`, the bytes it appends: nothing for a
whole second, else the dot and the nine digits of the nanoseconds without their trailing
zeros. -/
def appendNano (nanosec : Nat) : List Char :=
  if nanosec = 0 then []
  else '.' :: ((appendInt nanosec 9).reverse.dropWhile (fun c => decide (c = '0'))).reverse

/-- Go `t.Format(time.RFC3339Nano)`, layout `"2006-01-02T15:04:05.999999999Z07:00"`. -/
def formatRFC3339Nano (t : Time) : List Char :=
  appendInt t.year 4 ++ '-' :: appendInt t.month 2 ++ '-' :: appendInt t.day 2 ++
    'T' :: appendInt t.hour 2 ++ ':' :: appendInt t.minute 2 ++ ':' :: appendInt t.second 2 ++
    appendNano t.nanosecond ++ appendZone t.offset

/-- Go `time.isDigit(s, i)`. -/
def isDigitAt (s : List Char) (i : Nat) : Bool :=
  match s.get? i with
  | some c => strconv.isDigit c
  | none => false

/-- Go `time.atoi(s)` on a string that starts with a digit: every byte must be a digit
(`leadingInt` must leave no remainder); `none` is `errAtoi`. -/
def atoi (s : List Char) : Option Nat :=
  if s.all strconv.isDigit then some (s.foldl (fun n c => n * 10 + strconv.digitVal c) 0)
  else none

/-- Go `time.getnum(s, true)`: exactly two digits; `none` is `errBad`. -/
def getnum (s : List Char) : Option (Nat × List Char) :=
  match s with
  | a :: b :: rest =>
    if strconv.isDigit a && strconv.isDigit b then
      some (strconv.digitVal a * 10 + strconv.digitVal b, rest)
    else none
  | _ => none

/-- Go `time.skip(value, "-")`: the literal `-` of the layout must come next. -/
def skipDash (value : List Char) : Option (List Char) :=
  match value with
  | c :: rest => if c = '-' then some rest else none
  | [] => none

/-- Go `time.Parse("2006-01-02", value)`; `none` stands for every error return, on which
Go hands back the zero `Time`.  Year: four bytes, the first a digit, converted by `atoi`;
month and day: `getnum` with two fixed digits; the month must lie in 1..12, nothing may
follow the day, and the day must lie in `1..daysIn(month, year)`.  The result is
`Date(year, month, day, 0, 0, 0, 0, UTC)`. -/
def parseDate (value : List Char) : Option Time := do
  if value.length < 4 ∨ !isDigitAt value 0 then none
  let year ← atoi (value.take 4)
  let value ← skipDash (value.drop 4)
  let (month, value) ← getnum value
  if month = 0 ∨ 12 < month then none
  let value ← skipDash value
  let (day, value) ← getnum value
  if value ≠ [] then none
  if day < 1 ∨ day > daysIn month year then none
  pure { year := year, month := month, day := day, hour := 0, minute := 0, second := 0,
         offset := 0 }

/-- Go `t.Format("02/Jan/2006")`: two-digit day, the first three bytes of the month name,
four-digit year. -/
def formatDayMonYear (t : Time) : List Char :=
  appendInt t.day 2 ++ '/' :: (monthName t.month).data.take 3 ++ '/' :: appendInt t.year 4

end time

/-! ## Package `database/sql` -/

namespace sql

/-- A Go `error` value as the repository tells them apart: it compares an error with
`sql.ErrNoRows` by `==` and hands every other one on as it is.  The texts of the errors
that `Scan` makes up itself are shortened here; the repository never reads them. -/
inductive Error
  | ErrNoRows
  | other (msg : String)
  deriving DecidableEq

/-- A `driver.Value` (and a bound query argument): `int64`, `bool`, `string` or `[]byte`
(both are `text`: `convertAssign` treats the bytes as the string they spell), `time.Time`,
and `nil` for SQL NULL.  The kind `float64` is not represented. -/
inductive Value
  | int (n : Int)
  | bool (b : Bool)
  | text (s : String)
  | time (t : time.Time)
  | null
  deriving DecidableEq

/-- What a `*sql.Row` holds until `Scan` is called: the deferred error of the query
(`ErrNoRows` when the result set is empty) or the column values of the first row. -/
abbrev Row := Except Error (List Value)

/-- A `*sql.Rows`: the rows that `Next` delivers one by one, and the error `Next` stopped
on, if any (`rows.Err()`; `none` when the result set simply ended). -/
structure Rows where
  items : List (List Value)
  err : Option Error

/-- The SQL statements of the repository, by shape.  The column lists are those of the
statement text, in its order; parameters are positional.
* `selectWhereId cols t`: `SELECT cols FROM t WHERE id=$1;`
* `selectLimit cols t`: `SELECT cols FROM t LIMIT $1;`
* `selectAll cols t`: `SELECT cols FROM t;`
* `insertReturningId t cols`: `INSERT INTO t (cols) VALUES ($1, ..., $n) RETURNING id;`
* `updateWhereId t cols`: `UPDATE t SET cols[0] = $2, cols[1] = $3, ... WHERE id = $1;`
* `deleteWhereId t`: `DELETE FROM t WHERE id = $1;` -/
inductive Stmt
  | selectWhereId (columns : List String) (table : String)
  | selectLimit (columns : List String) (table : String)
  | selectAll (columns : List String) (table : String)
  | insertReturningId (table : String) (columns : List String)
  | updateWhereId (table : String) (columns : List String)
  | deleteWhereId (table : String)
  deriving DecidableEq

/-- The handle `*sql.DB` over a store with states `σ`: what `QueryRow`, `Query` and `Exec`
answer in a state, and the state they leave.  Nothing is assumed about the answers. -/
structure DB (σ : Type) where
  QueryRow : Stmt → List Value → σ → Row × σ
  Query : Stmt → List Value → σ → Except Error Rows × σ
  Exec : Stmt → List Value → σ → Option Error × σ

/-- The integer branch of Go `convertAssign` on the text `s` of a value:
`strconv.ParseInt(s, 10, 64)`, any failure of which fails the conversion. -/
def parseAsInt (s : String) : Except Error Int :=
  match strconv.ParseInt s.data with
  | (n, none) => .ok n
  | (_, some _) => .error (.other "sql: Scan error: converting driver.Value to a int")

/-- Go `convertAssign` into an `*int` destination.  No kind of value is assignable to
`int`, so the value goes through its text (`asString`) and `strconv.ParseInt`: an `int64`
comes back as itself, a text and a bool (`"true"`, `"false"`) are parsed, and the text of
a `time.Time` (`2006-01-02 15:04:05 ...`, a `-` following the digits of the year) never
parses.  NULL is an error. -/
def convertInt : Value → Except Error Int
  | .int n => .ok n
  | .bool b => parseAsInt (strconv.FormatBool b)
  | .text s => parseAsInt s
  | .time _ => .error (.other "sql: Scan error: converting driver.Value to a int")
  | .null => .error (.other "sql: Scan error: converting NULL to int is unsupported")

/-- Go `convertAssign` into a `*string` destination: a text is stored as it is, a
`time.Time` in the layout `time.RFC3339Nano`, an `int64` and a bool as `asString` prints
them (`strconv.FormatInt`, `strconv.FormatBool`).  NULL is an error. -/
def convertString : Value → Except Error String
  | .int n => .ok (strconv.FormatInt n)
  | .bool b => .ok (strconv.FormatBool b)
  | .text s => .ok s
  | .time t => .ok (String.mk (time.formatRFC3339Nano t))
  | .null => .error (.other "sql: Scan error: converting NULL to string is unsupported")

/-- Go `convertAssign` into a `*time.Time` destination: only a `time.Time` is assignable,
and no conversion through text is tried for a struct. -/
def convertTime : Value → Except Error time.Time
  | .time t => .ok t
  | _ => .error (.other "sql: Scan error: unsupported Scan, storing driver.Value into type *time.Time")

end sql

/-! ## Package `domain` -/

namespace domain

/-- Modelled from the spec: `domain.RecipeAuthor` ("id, name"); the package `domain` is
not among the sources. -/
structure RecipeAuthor where
  ID : Int
  Name : String
  deriving DecidableEq

/-- Modelled from the spec: `domain.RecipeCategory` ("id, name"). -/
structure RecipeCategory where
  ID : Int
  Name : String
  deriving DecidableEq

/-- Modelled from the spec: `domain.RecipeDifficulty` ("id, name"). -/
structure RecipeDifficulty where
  ID : Int
  Name : String
  deriving DecidableEq

/-- Modelled from the spec: `domain.RecipePreview` ("id, title, description"). -/
structure RecipePreview where
  ID : Int
  Title : String
  Description : String
  deriving DecidableEq

/-- Modelled from the spec: `domain.Recipe` ("id, title, description, author (reference),
category (reference), difficulty (reference), rating, preparation time, serving
description, ingredients (ordered list of strings), steps (ordered list of strings),
access count, image URL, published date (formatted string)").  The field names are those
the repository uses; rating, preparation time and access count are integers here. -/
structure Recipe where
  ID : Int
  Title : String
  Description : String
  Author : RecipeAuthor
  Category : RecipeCategory
  Dificulty : RecipeDifficulty
  Rating : Int
  PreparationTime : Int
  Serving : String
  Ingredients : List String
  Steps : List String
  AccessCount : Int
  ImageURL : String
  PublishedDate : String
  deriving DecidableEq

end domain

/-! ## Package `repository` -/

namespace repository

open sql domain

/-- The part of `*http.Request` the repository reads: `r.FormValue(key)`, the first value
of the form field `key`, or the empty string when the field is absent. -/
structure Request where
  FormValue : String → String

/-- How a call ends: it returns a value to its caller, or `log.Fatal(err)` ends the
process (`os.Exit(1)`) and nothing is returned. -/
inductive Outcome (α : Type)
  | returned (value : α)
  | fatal (err : Error)
  deriving DecidableEq

/-- The variables `row.Scan` of `FetchRecipe` writes to, in the order of its arguments. -/
structure RecipeDest where
  ID : Int
  Title : String
  Description : String
  AuthorID : Int
  CategoryID : Int
  DificultyID : Int
  Rating : Int
  PreparationTime : Int
  Serving : String
  ingredients : String
  steps : String
  AccessCount : Int
  ImageURL : String
  publishedDateTime : time.Time
  deriving DecidableEq

/-- The destinations before `Scan`: Go zero values. -/
def RecipeDest.zero : RecipeDest :=
  { ID := 0, Title := "", Description := "", AuthorID := 0, CategoryID := 0, DificultyID := 0,
    Rating := 0, PreparationTime := 0, Serving := "", ingredients := "", steps := "",
    AccessCount := 0, ImageURL := "", publishedDateTime := time.zero }

/-- The call
`row.Scan(&recipe.ID, &recipe.Title, &recipe.Description, &recipe.Author.ID,
&recipe.Category.ID, &recipe.Dificulty.ID, &recipe.Rating, &recipe.PreparationTime,
&recipe.Serving, &ingredients, &steps, &recipe.AccessCount, &recipe.ImageURL,
&publishedDateTime)`: the deferred error of the row, else a mismatch between the number
of columns and of destinations, else the columns converted one by one, the first failure
being the error. -/
def scanRecipe : Row → Except Error RecipeDest
  | .error e => .error e
  | .ok [c0, c1, c2, c3, c4, c5, c6, c7, c8, c9, c10, c11, c12, c13] => do
    let ID ← convertInt c0
    let Title ← convertString c1
    let Description ← convertString c2
    let AuthorID ← convertInt c3
    let CategoryID ← convertInt c4
    let DificultyID ← convertInt c5
    let Rating ← convertInt c6
    let PreparationTime ← convertInt c7
    let Serving ← convertString c8
    let ingredients ← convertString c9
    let steps ← convertString c10
    let AccessCount ← convertInt c11
    let ImageURL ← convertString c12
    let publishedDateTime ← convertTime c13
    pure { ID, Title, Description, AuthorID, CategoryID, DificultyID, Rating, PreparationTime,
           Serving, ingredients, steps, AccessCount, ImageURL, publishedDateTime }
  | .ok _ => .error (.other "sql: expected 14 destination arguments in Scan")

/-- A `row.Scan(&x.ID, &x.Name)` onto an integer and a string. -/
def scanIdName : Row → Except Error (Int × String)
  | .error e => .error e
  | .ok [c0, c1] => do
    let ID ← convertInt c0
    let Name ← convertString c1
    pure (ID, Name)
  | .ok _ => .error (.other "sql: expected 2 destination arguments in Scan")

/-- A `rows.Scan(&preview.ID, &preview.Title, &preview.Description)`. -/
def scanPreview : Row → Except Error RecipePreview
  | .error e => .error e
  | .ok [c0, c1, c2] => do
    let ID ← convertInt c0
    let Title ← convertString c1
    let Description ← convertString c2
    pure { ID, Title, Description }
  | .ok _ => .error (.other "sql: expected 3 destination arguments in Scan")

/-- The `.Scan(&id)` of `InsertRecipe`. -/
def scanId : Row → Except Error Int
  | .error e => .error e
  | .ok [c0] => convertInt c0
  | .ok _ => .error (.other "sql: expected 1 destination arguments in Scan")

/-- The function `formatDate`:
```go
dateStr := input.Format(time.RFC3339)[:10]
t, _ := time.Parse("2006-01-02", dateStr)
return t.Format("02/Jan/2006")
```
The formatted time is never shorter than ten bytes (`formatRFC3339_length`), so the slice
cannot fail; when `Parse` fails, `t` is the zero `Time`. -/
def formatDate (input : time.Time) : String :=
  let dateStr := (time.formatRFC3339 input).take 10
  let t := (time.parseDate dateStr).getD time.zero
  String.mk (time.formatDayMonYear t)

/-- The three-way `switch err` that ends each fetch-by-id method:
`sql.ErrNoRows` gives `nil, nil`; `nil` gives the record; any other error gives
`nil, err`. -/
def switchErr {α : Type} (err : Option Error) (record : α) : Option α × Option Error :=
  match err with
  | some .ErrNoRows => (none, none)
  | none => (some record, none)
  | some e => (none, some e)

/-- The statement of `FetchRecipe`. -/
def fetchRecipeStatement : Stmt :=
  .selectWhereId ["id", "title", "description", "author_id", "category_id", "dificulty_id",
    "rating", "preparation_time", "serving", "ingredients", "steps", "access_count", "image",
    "published_date"] "recipe"

/-- The method `Repository.FetchRecipe`.  When `Scan` fails, the destinations it had not
reached keep their zero values and those it had written are dropped with the record, so
the zero values stand for the destinations in that case. -/
def FetchRecipe {σ : Type} (db : DB σ) (recipeID : Int) (st : σ) :
    (Option Recipe × Option Error) × σ :=
  let (row, st) := db.QueryRow fetchRecipeStatement [.int recipeID] st
  let (dest, err) := match scanRecipe row with
    | .ok d => (d, none)
    | .error e => (RecipeDest.zero, some e)
  let recipe : Recipe :=
    { ID := dest.ID, Title := dest.Title, Description := dest.Description,
      Author := { ID := dest.AuthorID, Name := "" },
      Category := { ID := dest.CategoryID, Name := "" },
      Dificulty := { ID := dest.DificultyID, Name := "" },
      Rating := dest.Rating, PreparationTime := dest.PreparationTime, Serving := dest.Serving,
      Ingredients := strings.Split dest.ingredients '|',
      Steps := strings.Split dest.steps '|',
      AccessCount := dest.AccessCount, ImageURL := dest.ImageURL,
      PublishedDate := formatDate dest.publishedDateTime }
  (switchErr err recipe, st)

/-- The method `Repository.FetchAuthor`. -/
def FetchAuthor {σ : Type} (db : DB σ) (ID : Int) (st : σ) :
    (Option RecipeAuthor × Option Error) × σ :=
  let (row, st) := db.QueryRow (.selectWhereId ["id", "name"] "author") [.int ID] st
  let (dest, err) := match scanIdName row with
    | .ok d => (d, none)
    | .error e => ((0, ""), some e)
  (switchErr err { ID := dest.1, Name := dest.2 }, st)

/-- The method `Repository.FetchCategory`. -/
def FetchCategory {σ : Type} (db : DB σ) (ID : Int) (st : σ) :
    (Option RecipeCategory × Option Error) × σ :=
  let (row, st) := db.QueryRow (.selectWhereId ["id", "name"] "category") [.int ID] st
  let (dest, err) := match scanIdName row with
    | .ok d => (d, none)
    | .error e => ((0, ""), some e)
  (switchErr err { ID := dest.1, Name := dest.2 }, st)

/-- The method `Repository.FetchDificulty`. -/
def FetchDificulty {σ : Type} (db : DB σ) (ID : Int) (st : σ) :
    (Option RecipeDifficulty × Option Error) × σ :=
  let (row, st) := db.QueryRow (.selectWhereId ["id", "name"] "dificulty") [.int ID] st
  let (dest, err) := match scanIdName row with
    | .ok d => (d, none)
    | .error e => ((0, ""), some e)
  (switchErr err { ID := dest.1, Name := dest.2 }, st)

/-- The loop `for rows.Next() { if err := rows.Scan(...); err != nil { log.Fatal(err) };
list = append(list, item) }` over the rows that `Next` delivers.  When `Next` reports
false the loop is left, whether the result set ended or `Next` failed: `rows.Err()` is
not consulted. -/
def scanLoop {α : Type} (scan : Row → Except Error α) : List (List Value) → List α →
    Outcome (List α)
  | [], acc => .returned acc
  | cols :: rest, acc =>
    match scan (.ok cols) with
    | .error e => .fatal e
    | .ok item => scanLoop scan rest (acc ++ [item])

/-- The common body of the three list methods: `log.Fatal` on a failed `Query`, the scan
loop, then `return &list, err` with the `err` of `Query`, which is `nil` there. -/
def fetchList {σ α : Type} (db : DB σ) (stmt : Stmt) (args : List Value)
    (scan : Row → Except Error α) (st : σ) : Outcome (List α × Option Error) × σ :=
  match db.Query stmt args st with
  | (.error e, st) => (.fatal e, st)
  | (.ok rows, st) =>
    match scanLoop scan rows.items [] with
    | .fatal e => (.fatal e, st)
    | .returned list => (.returned (list, none), st)

/-- The method `Repository.FetchRecipePreviews` (the request is not read). -/
def FetchRecipePreviews {σ : Type} (db : DB σ) (_r : Request) (st : σ) :
    Outcome (List RecipePreview × Option Error) × σ :=
  fetchList db (.selectLimit ["id", "title", "description"] "recipe") [.int 10] scanPreview st

/-- The method `Repository.FetchCategories`. -/
def FetchCategories {σ : Type} (db : DB σ) (st : σ) :
    Outcome (List RecipeCategory × Option Error) × σ :=
  fetchList db (.selectAll ["id", "name"] "category") []
    (fun row => (scanIdName row).map (fun d => { ID := d.1, Name := d.2 })) st

/-- The method `Repository.FetchDifficulties`. -/
def FetchDifficulties {σ : Type} (db : DB σ) (st : σ) :
    Outcome (List RecipeDifficulty × Option Error) × σ :=
  fetchList db (.selectAll ["id", "name"] "dificulty") []
    (fun row => (scanIdName row).map (fun d => { ID := d.1, Name := d.2 })) st

/-- The columns the `UPDATE` of `UpdateRecipe` sets, in the order of the statement
(`$2` to `$6`; `$1` is the id of the `WHERE` clause). -/
def updateRecipeColumns : List String :=
  ["title", "description", "preparation_time", "serving", "image"]

/-- The statement of `UpdateRecipe`. -/
def updateRecipeStatement : Stmt := .updateWhereId "recipe" updateRecipeColumns

/-- The arguments `UpdateRecipe` passes to `Exec`, in order:
`id, title, description, preparationTime, serving, imageURL`, where
`preparationTime, _ := strconv.Atoi(r.FormValue("preparation-time"))`. -/
def updateRecipeArgs (r : Request) (id : Int) : List Value :=
  let title := r.FormValue "title"
  let description := r.FormValue "description"
  let preparationTime := (strconv.Atoi (r.FormValue "preparation-time")).1
  let serving := r.FormValue "serving"
  let imageURL := r.FormValue "imgURL"
  [.int id, .text title, .text description, .int preparationTime, .text serving, .text imageURL]

/-- The method `Repository.UpdateRecipe`. -/
def UpdateRecipe {σ : Type} (db : DB σ) (r : Request) (id : Int) (st : σ) : Option Error × σ :=
  db.Exec updateRecipeStatement (updateRecipeArgs r id) st

/-- The columns of the `INSERT` of `InsertRecipe`, in the order of the statement. -/
def insertRecipeColumns : List String :=
  ["title", "description", "author_id", "category_id", "dificulty_id", "preparation_time",
   "serving", "ingredients", "steps", "image"]

/-- The statement of `InsertRecipe`. -/
def insertRecipeStatement : Stmt := .insertReturningId "recipe" insertRecipeColumns

/-- The arguments `InsertRecipe` passes to `QueryRow`, in order:
`title, description, 2, categoryID, difficultyID, preparationTime, serving, ingredients,
steps, imageURL`; the three numbers come from `strconv.Atoi` with the error dropped. -/
def insertRecipeArgs (r : Request) : List Value :=
  let title := r.FormValue "title"
  let description := r.FormValue "description"
  let categoryID := (strconv.Atoi (r.FormValue "category")).1
  let difficultyID := (strconv.Atoi (r.FormValue "difficulty")).1
  let preparationTime := (strconv.Atoi (r.FormValue "preparation-time")).1
  let serving := r.FormValue "serving"
  let ingredients := r.FormValue "ingredients"
  let steps := r.FormValue "steps"
  let imageURL := r.FormValue "imgURL"
  [.text title, .text description, .int 2, .int categoryID, .int difficultyID,
   .int preparationTime, .text serving, .text ingredients, .text steps, .text imageURL]

/-- The method `Repository.InsertRecipe`; `id` stays `0` when `Scan` fails.  (The
`fmt.Println(id)` writes to standard output and is left out.) -/
def InsertRecipe {σ : Type} (db : DB σ) (r : Request) (st : σ) : (Int × Option Error) × σ :=
  let (row, st) := db.QueryRow insertRecipeStatement (insertRecipeArgs r) st
  match scanId row with
  | .ok id => ((id, none), st)
  | .error e => ((0, some e), st)

/-- The method `Repository.RemoveRecipe`. -/
def RemoveRecipe {σ : Type} (db : DB σ) (_r : Request) (id : Int) (st : σ) : Option Error × σ :=
  db.Exec (.deleteWhereId "recipe") [.int id] st

/-- The value bound to the column `col` by a statement with column list `cols` and
positional arguments `args` (`$1` is the first argument). -/
def boundTo (cols : List String) (args : List Value) (col : String) : Option Value :=
  (cols.zip args).lookup col

end repository

/-! ## The backing store -/

namespace store

open sql

/-- A stored row: column name and value, the first entry for a name being the one that
counts. -/
abbrev Record := List (String × Value)

/-- The value of a column of a stored row; a column without an entry is NULL. -/
def column (rcd : Record) (col : String) : Value := (rcd.lookup col).getD .null

/-- A state of the store: the rows of each table, in the order the store returns them. -/
structure Store where
  tables : String → List Record

/-- Modelled from the spec: the schema of the table `recipe`, which is not among the
sources.  "`recipe(id, title, description, author_id, category_id, dificulty_id, rating,
preparation_time, serving, ingredients, steps, access_count, image, published_date)`",
rows are found by `id`, the store assigns the id of a new row (`RETURNING id`), and
"fields not accepted by insert (rating, access_count, published_date) ... take
store-assigned defaults".  The id and the defaults handed out may depend on the state in
any way, and `refusal` is the store's verdict on a new row (referential integrity and any
other constraint): `some e` refuses it with the error `e`. -/
structure Schema where
  nextId : Store → Int
  rating : Store → Int
  accessCount : Store → Int
  publishedDate : Store → time.Time
  refusal : Store → Record → Option Error

/-- The row has the given key in its column `id`. -/
def hasId (key : Value) (rcd : Record) : Bool := decide (column rcd "id" = key)

/-- Replace the rows of one table. -/
def Store.set (s : Store) (table : String) (rows : List Record) : Store :=
  { tables := fun t => if t = table then rows else s.tables t }

/-- Modelled from the spec: `INSERT INTO recipe (cols) VALUES (args) RETURNING id`.  The
listed columns take the bound values unchanged, then come the assigned id and the
defaults.  A row whose id is already in use is refused (ids identify rows), and so is a
row that `refusal` turns down; an accepted row is added after the existing ones and its id is
the one-column result row. -/
def insertRecipe (schema : Schema) (cols : List String) (args : List Value) (s : Store) :
    Row × Store :=
  if cols.length ≠ args.length then
    (.error (.other "pq: bind message supplies the wrong number of parameters"), s)
  else
    let rcd : Record := cols.zip args ++
      [("id", .int (schema.nextId s)), ("rating", .int (schema.rating s)),
       ("access_count", .int (schema.accessCount s)),
       ("published_date", .time (schema.publishedDate s))]
    if (s.tables "recipe").any (hasId (column rcd "id")) then
      (.error (.other "pq: duplicate key value violates unique constraint"), s)
    else match schema.refusal s rcd with
      | some e => (.error e, s)
      | none => (.ok [column rcd "id"], s.set "recipe" (s.tables "recipe" ++ [rcd]))

/-- Modelled from the spec: what the store answers to `QueryRow`.  A `SELECT ... WHERE
id=$1` yields the listed columns of the first row with that id, or `ErrNoRows`; the
`INSERT ... RETURNING id` of the table `recipe` is `insertRecipe`. -/
def queryRow (schema : Schema) : Stmt → List Value → Store → Row × Store
  | .selectWhereId cols table, [key], s =>
    match (s.tables table).find? (hasId key) with
    | some rcd => (.ok (cols.map (column rcd)), s)
    | none => (.error .ErrNoRows, s)
  | .insertReturningId "recipe" cols, args, s => insertRecipe schema cols args s
  | _, _, s => (.error (.other "pq: statement not supported"), s)

/-- Modelled from the spec: what the store answers to `Query`: the listed columns of all
rows of the table, or of the first `$1` of them under `LIMIT $1`. -/
def query : Stmt → List Value → Store → Except Error Rows × Store
  | .selectAll cols table, [], s =>
    (.ok { items := (s.tables table).map (fun rcd => cols.map (column rcd)), err := none }, s)
  | .selectLimit cols table, [.int n], s =>
    (.ok { items := ((s.tables table).take n.toNat).map (fun rcd => cols.map (column rcd)),
           err := none }, s)
  | _, _, s => (.error (.other "pq: statement not supported"), s)

/-- Modelled from the spec: what the store answers to `Exec`: `UPDATE ... WHERE id = $1`
overwrites the listed columns of the rows with that id, `DELETE ... WHERE id = $1` removes
them; neither reports whether a row was affected. -/
def exec : Stmt → List Value → Store → Option Error × Store
  | .updateWhereId table cols, key :: args, s =>
    (none, s.set table ((s.tables table).map
      (fun rcd => if hasId key rcd then cols.zip args ++ rcd else rcd)))
  | .deleteWhereId table, [key], s =>
    (none, s.set table ((s.tables table).filter (fun rcd => !hasId key rcd)))
  | _, _, s => (some (.other "pq: statement not supported"), s)

/-- The handle on the modelled store. -/
def db (schema : Schema) : DB Store :=
  { QueryRow := queryRow schema, Query := query, Exec := exec }

/-- The store with no rows. -/
def empty : Store := { tables := fun _ => [] }

/-- A schema for examples: ids count the rows, rating and access count start at 0, the
published date is 2021-01-02T00:00:00Z, every row is accepted. -/
def sampleSchema : Schema :=
  { nextId := fun s => (s.tables "recipe").length + 1
    rating := fun _ => 0
    accessCount := fun _ => 0
    publishedDate := fun _ =>
      { year := 2021, month := 1, day := 2, hour := 0, minute := 0, second := 0, offset := 0 }
    refusal := fun _ _ => none }

/-- A request for examples, with the form fields of a pancake recipe. -/
def sampleRequest : repository.Request :=
  { FormValue := fun key =>
      if key = "title" then "Pancakes"
      else if key = "description" then "Thin ones"
      else if key = "category" then "3"
      else if key = "difficulty" then "1"
      else if key = "preparation-time" then "20"
      else if key = "serving" then "4 people"
      else if key = "ingredients" then "eggs|flour|milk"
      else if key = "steps" then "mix|fry"
      else if key = "imgURL" then "http://img/p.png"
      else "" }

/-- The row `InsertRecipe` asks the store to add, with the id and the defaults the store
gives it. -/
def newRecord (schema : Schema) (r : repository.Request) (s : Store) : Record :=
  repository.insertRecipeColumns.zip (repository.insertRecipeArgs r) ++
    [("id", .int (schema.nextId s)), ("rating", .int (schema.rating s)),
     ("access_count", .int (schema.accessCount s)),
     ("published_date", .time (schema.publishedDate s))]

/-- The record `FetchRecipe` builds from the row `newRecord`. -/
def readBack (schema : Schema) (r : repository.Request) (s : Store) : domain.Recipe :=
  { ID := schema.nextId s
    Title := r.FormValue "title"
    Description := r.FormValue "description"
    Author := { ID := 2, Name := "" }
    Category := { ID := (strconv.Atoi (r.FormValue "category")).1, Name := "" }
    Dificulty := { ID := (strconv.Atoi (r.FormValue "difficulty")).1, Name := "" }
    Rating := schema.rating s
    PreparationTime := (strconv.Atoi (r.FormValue "preparation-time")).1
    Serving := r.FormValue "serving"
    Ingredients := strings.Split (r.FormValue "ingredients") '|'
    Steps := strings.Split (r.FormValue "steps") '|'
    AccessCount := schema.accessCount s
    ImageURL := r.FormValue "imgURL"
    PublishedDate := repository.formatDate (schema.publishedDate s) }

/-- The state of the sample store after the sample request was inserted into the empty
store. -/
def sampleState : Store :=
  (repository.InsertRecipe (db sampleSchema) sampleRequest empty).2

/-- The destinations after the `Scan` of `FetchRecipe` on the row of `sampleState`. -/
def sampleDest : repository.RecipeDest :=
  { ID := 1, Title := "Pancakes", Description := "Thin ones", AuthorID := 2, CategoryID := 3,
    DificultyID := 1, Rating := 0, PreparationTime := 20, Serving := "4 people",
    ingredients := "eggs|flour|milk", steps := "mix|fry", AccessCount := 0,
    ImageURL := "http://img/p.png",
    publishedDateTime :=
      { year := 2021, month := 1, day := 2, hour := 0, minute := 0, second := 0, offset := 0 } }

/-- A request whose `category` field is `2^63`, one more than the largest `int`. -/
def overflowRequest : repository.Request :=
  { FormValue := fun key => if key = "category" then "9223372036854775808" else "" }

/-- A request without any form field: `FormValue` is the empty string throughout. -/
def bareRequest : repository.Request := { FormValue := fun _ => "" }

/-- The state of the sample store after the request without fields was inserted into the
empty store. -/
def bareState : Store :=
  (repository.InsertRecipe (db sampleSchema) bareRequest empty).2

/-- The destinations after the `Scan` of `FetchRecipe` on the row of `bareState`. -/
def bareDest : repository.RecipeDest :=
  { ID := 1, Title := "", Description := "", AuthorID := 2, CategoryID := 0,
    DificultyID := 0, Rating := 0, PreparationTime := 0, Serving := "",
    ingredients := "", steps := "", AccessCount := 0, ImageURL := "",
    publishedDateTime :=
      { year := 2021, month := 1, day := 2, hour := 0, minute := 0, second := 0, offset := 0 } }

end store

/-! ## Specification-side notions -/

namespace spec

/-- The two decimal digits of a number below 100. -/
def twoDigits (n : Nat) : List Char := [Char.ofNat (48 + n / 10), Char.ofNat (48 + n % 10)]

/-- The four decimal digits of a number below 10000. -/
def fourDigits (n : Nat) : List Char :=
  [Char.ofNat (48 + n / 1000), Char.ofNat (48 + n / 100 % 10), Char.ofNat (48 + n / 10 % 10),
   Char.ofNat (48 + n % 10)]

/-- The three-letter English abbreviation of a month, January being 1. -/
def monthAbbrev (m : Nat) : String :=
  (["Jan", "Feb", "Mar", "Apr", "May", "Jun", "Jul", "Aug", "Sep", "Oct", "Nov", "Dec"].get?
    (m - 1)).getD ""

/-- The display form of a calendar date as the spec words it: "two-digit day, `/`,
three-letter English month abbreviation, `/`, four-digit year". -/
def displayDate (year month day : Nat) : String :=
  String.mk (twoDigits day ++ ['/'] ++ (monthAbbrev month).data ++ ['/'] ++ fourDigits year)

/-- The number a string of decimal digits denotes. -/
def digitsValue (ds : List Char) : Nat :=
  ds.foldl (fun n c => n * 10 + strconv.digitVal c) 0

/-- The string starts with a minus sign. -/
def negative (s : String) : Bool := decide (s.data.head? = some '-')

/-- The string without its leading sign (`+` or `-`), if it has one. -/
def unsigned (s : String) : List Char :=
  match s.data with
  | [] => []
  | c :: rest => if c = '+' ∨ c = '-' then rest else c :: rest

/-- What `strconv.Atoi` makes of a string, told from the string itself.  Let `body` be the
string without its sign and `lead` the decimal digits `body` starts with.
* Nothing after the sign: syntax error, value 0.
* `lead` denotes `2^64 = 18446744073709551616` or more: range error, whatever follows;
  the value is `-2^63` under a minus sign and `2^63 - 1` otherwise.
* Otherwise, a byte that is not a digit follows `lead`: syntax error, value 0.
* Otherwise the string denotes an integer: itself when it lies in `-2^63 .. 2^63 - 1`,
  else a range error with the bound it lies beyond. -/
def atoiResult (s : String) : Int × Option strconv.NumError :=
  let body := unsigned s
  let lead := body.takeWhile strconv.isDigit
  if body = [] then (0, some .ErrSyntax)
  else if 18446744073709551616 ≤ digitsValue lead then
    (if negative s then -9223372036854775808 else 9223372036854775807, some .ErrRange)
  else if lead ≠ body then (0, some .ErrSyntax)
  else if negative s then
    if 9223372036854775808 < digitsValue body then (-9223372036854775808, some .ErrRange)
    else (-(digitsValue body : Int), none)
  else
    if 9223372036854775808 ≤ digitsValue body then (9223372036854775807, some .ErrRange)
    else ((digitsValue body : Int), none)

/-- The integer that an optionally signed, non-empty string of decimal digits denotes;
`none` for every other string. -/
def decimalValue (s : String) : Option Int :=
  if unsigned s ≠ [] ∧ (unsigned s).all strconv.isDigit = true then
    some (if negative s then -(digitsValue (unsigned s) : Int) else (digitsValue (unsigned s) : Int))
  else none

/-- The integer of the range `-2^63 .. 2^63 - 1` nearest to `v`. -/
def nearestInt64 (v : Int) : Int := max (-9223372036854775808) (min 9223372036854775807 v)

/-- The error of a failed step, `none` when it succeeded. -/
def errorOf {α : Type} : Except sql.Error α → Option sql.Error
  | .ok _ => none
  | .error e => some e

/-- A handle whose store answers every request with the failure `e`. -/
def failing (e : sql.Error) : sql.DB Unit :=
  { QueryRow := fun _ _ st => (.error e, st)
    Query := fun _ _ st => (.error e, st)
    Exec := fun _ _ st => (some e, st) }

/-- A handle whose store answers every `Query` with the rows `items`, after which `Next`
fails with `e` (the connection is lost while the result set is read). -/
def interrupted (items : List (List sql.Value)) (e : sql.Error) : sql.DB Unit :=
  { QueryRow := fun _ _ st => (.error e, st)
    Query := fun _ _ st => (.ok { items := items, err := some e }, st)
    Exec := fun _ _ st => (some e, st) }

end spec

/-! ## Facts about `strings.Split` -/

namespace strings

theorem pieces_ne_nil (sep : Char) (s : List Char) : pieces sep s ≠ [] := by
  cases s with
  | nil => simp [pieces]
  | cons x xs =>
    by_cases h : x = sep
    · simp [pieces, h]
    · simp only [pieces, h, if_false]
      cases pieces sep xs <;> simp

theorem IndexByte_none_iff (c : Char) (s : List Char) : IndexByte c s = none ↔ c ∉ s := by
  induction s with
  | nil => simp [IndexByte]
  | cons x xs ih =>
    by_cases h : x = c
    · simp [IndexByte, h]
    · have h2 : ¬ c = x := fun e => h e.symm
      simp [IndexByte, h, h2, ih]

theorem Count_eq_zero_iff (c : Char) (s : List Char) : Count c s = 0 ↔ c ∉ s := by
  induction s with
  | nil => simp [Count]
  | cons x xs ih =>
    by_cases h : x = c
    · simp [Count, h]
    · have h2 : ¬ c = x := fun e => h e.symm
      simp [Count, h, h2, ih]

theorem pieces_of_not_mem (sep : Char) (s : List Char) (h : sep ∉ s) :
    pieces sep s = [s] := by
  induction s with
  | nil => rfl
  | cons x xs ih =>
    have hx : ¬ x = sep := fun e => h (by simp [e])
    have hxs : sep ∉ xs := fun e => h (by simp [e])
    simp [pieces, hx, ih hxs]

theorem not_mem_cons_of (sep x : Char) (xs : List Char) (h : ¬ x = sep) (h0 : sep ∉ xs) :
    sep ∉ x :: xs := by
  intro e
  rcases List.mem_cons.1 e with e | e
  · exact h e.symm
  · exact h0 e

/-- The loop of `genSplit`, given at least as many iterations as there are separators,
computes the pieces between the separators. -/
theorem genSplitLoop_eq_pieces (sep : Char) (s : List Char) :
    ∀ k, Count sep s ≤ k → genSplitLoop sep k s = pieces sep s := by
  induction s with
  | nil => intro k _; cases k <;> simp [genSplitLoop, IndexByte, pieces]
  | cons x xs ih =>
    intro k hk
    by_cases h : x = sep
    · cases k with
      | zero => simp [Count, h] at hk
      | succ k =>
        have hk2 : Count sep xs ≤ k := by simp [Count, h] at hk; omega
        simp [genSplitLoop, IndexByte, h, pieces, ih k hk2]
    · have hc : Count sep (x :: xs) = Count sep xs := by simp [Count, h]
      rw [hc] at hk
      cases k with
      | zero =>
        have h0 : sep ∉ xs := (Count_eq_zero_iff sep xs).1 (by omega)
        rw [pieces_of_not_mem sep _ (not_mem_cons_of sep x xs h h0)]; rfl
      | succ k =>
        have ihk := ih (k + 1) hk
        cases hi : IndexByte sep xs with
        | none =>
          have h0 : sep ∉ xs := (IndexByte_none_iff sep xs).1 hi
          rw [pieces_of_not_mem sep _ (not_mem_cons_of sep x xs h h0)]
          simp [genSplitLoop, IndexByte, h, hi]
        | some m =>
          simp only [genSplitLoop, hi] at ihk
          simp [genSplitLoop, IndexByte, h, hi, pieces, ← ihk]

theorem genSplit_eq_pieces (sep : Char) (s : List Char) : genSplit sep s = pieces sep s :=
  genSplitLoop_eq_pieces sep s _ (Nat.le_refl _)

theorem pieces_no_sep (sep : Char) (s : List Char) : ∀ p ∈ pieces sep s, sep ∉ p := by
  induction s with
  | nil => simp [pieces]
  | cons x xs ih =>
    by_cases h : x = sep
    · intro p hp
      simp only [pieces, h, if_true, List.mem_cons] at hp
      rcases hp with hp | hp
      · simp [hp]
      · exact ih p hp
    · simp only [pieces, h, if_false]
      cases hs : pieces sep xs with
      | nil => exact absurd hs (pieces_ne_nil sep xs)
      | cons q qs =>
        rw [hs] at ih
        intro p hp
        simp only [List.mem_cons] at hp
        rcases hp with hp | hp
        · subst hp
          exact not_mem_cons_of sep x q h (ih q (by simp))
        · exact ih p (by simp [hp])

theorem joinChars_cons_cons (sep x : Char) (p : List Char) (ps : List (List Char)) :
    joinChars sep ((x :: p) :: ps) = x :: joinChars sep (p :: ps) := by
  cases ps <;> simp [joinChars]

theorem joinChars_pieces (sep : Char) (s : List Char) : joinChars sep (pieces sep s) = s := by
  induction s with
  | nil => rfl
  | cons x xs ih =>
    by_cases h : x = sep
    · simp only [pieces, h, if_true]
      cases hs : pieces sep xs with
      | nil => exact absurd hs (pieces_ne_nil sep xs)
      | cons q qs => rw [hs] at ih; simp [joinChars, ih]
    · simp only [pieces, h, if_false]
      cases hs : pieces sep xs with
      | nil => exact absurd hs (pieces_ne_nil sep xs)
      | cons q qs => rw [hs] at ih; simp [joinChars_cons_cons, ih]

theorem pieces_append_sep (sep : Char) (x t : List Char) (h : sep ∉ x) :
    pieces sep (x ++ sep :: t) = x :: pieces sep t := by
  induction x with
  | nil => simp [pieces]
  | cons a as ih =>
    have ha : ¬ a = sep := fun e => h (by simp [e])
    have has : sep ∉ as := fun e => h (by simp [e])
    simp [pieces, ha, ih has]

theorem pieces_joinChars (sep : Char) (l : List (List Char)) (hne : l ≠ [])
    (h : ∀ p ∈ l, sep ∉ p) : pieces sep (joinChars sep l) = l := by
  induction l with
  | nil => exact absurd rfl hne
  | cons x rest ih =>
    cases rest with
    | nil => simpa [joinChars] using pieces_of_not_mem sep x (h x (by simp))
    | cons y rest =>
      have := ih (by simp) (fun p hp => h p (by simp [hp]))
      simp only [joinChars]
      rw [pieces_append_sep sep x _ (h x (by simp)), this]

/-- The list `Split` returns is never empty. -/
theorem Split_ne_nil (s : String) (sep : Char) : Split s sep ≠ [] := by
  simp [Split, genSplit_eq_pieces, pieces_ne_nil]

/-- No piece returned by `Split` contains the separator. -/
theorem Split_no_sep (s : String) (sep : Char) : ∀ p ∈ Split s sep, ¬ Contains p sep := by
  intro p hp
  simp only [Split, genSplit_eq_pieces, List.mem_map] at hp
  obtain ⟨q, hq, rfl⟩ := hp
  exact pieces_no_sep sep s.data q hq

/-- Joining the pieces returned by `Split` gives back the string. -/
theorem Join_Split (s : String) (sep : Char) : Join (Split s sep) sep = s := by
  simp only [Join, Split, genSplit_eq_pieces, List.map_map]
  have : (String.data ∘ String.mk) = id := by funext l; rfl
  rw [this, List.map_id, joinChars_pieces]

/-- A string without the separator is split into itself alone. -/
theorem Split_of_not_Contains (s : String) (sep : Char) (h : ¬ Contains s sep) :
    Split s sep = [s] := by
  simp only [Split, genSplit_eq_pieces, pieces_of_not_mem sep s.data h, List.map]

/-- Splitting the joined form of a non-empty list whose elements are free of the
separator gives back the list. -/
theorem Split_Join (l : List String) (sep : Char) (hne : l ≠ [])
    (h : ∀ x ∈ l, ¬ Contains x sep) : Split (Join l sep) sep = l := by
  simp only [Split, Join, genSplit_eq_pieces]
  rw [pieces_joinChars sep _ (by simpa using hne)]
  · simp only [List.map_map]
    have : (String.mk ∘ String.data) = id := by funext l; rfl
    rw [this, List.map_id]
  · intro p hp
    simp only [List.mem_map] at hp
    obtain ⟨x, hx, rfl⟩ := hp
    exact h x hx

end strings

/-! ## Facts about `strconv.Atoi` -/

namespace strconv

/-- When the digit loop of `ParseUint` fails, the value is `0` for a syntax error and
`maxVal` for a range error. -/
theorem parseUintLoop_error (cutoff maxVal : Nat) (s : List Char) :
    ∀ n v e, parseUintLoop cutoff maxVal n s = (v, some e) →
      (e = .ErrSyntax → v = 0) ∧ (e = .ErrRange → v = maxVal) := by
  induction s with
  | nil => intro n v e h; simp [parseUintLoop] at h
  | cons c rest ih =>
    intro n v e h
    unfold parseUintLoop at h
    split at h
    · split at h
      · cases h; simp
      · simp only at h
        split at h
        · cases h; simp
        · exact ih _ v e h
    · cases h; simp

theorem ParseUint_error (s : List Char) (v : Nat) (e : NumError)
    (h : ParseUint s = (v, some e)) :
    (e = .ErrSyntax → v = 0) ∧ (e = .ErrRange → v = 2 ^ 64 - 1) := by
  unfold ParseUint at h
  split at h
  · cases h; simp
  · exact parseUintLoop_error _ _ s 0 v e h

/-- When `ParseInt` fails, the value is `0` for a syntax error and the nearest
representable integer, `2^63 - 1` or `-2^63`, for a range error. -/
theorem ParseInt_error (s : List Char) (v : Int) (e : NumError)
    (h : ParseInt s = (v, some e)) :
    (e = .ErrSyntax → v = 0) ∧
      (e = .ErrRange → v = 9223372036854775807 ∨ v = -9223372036854775808) := by
  unfold ParseInt at h
  split at h
  · cases h; simp
  · rename_i c rest
    simp only at h
    generalize ParseUint (if c = '+' ∨ c = '-' then rest else c :: rest) = pu at h
    obtain ⟨un, err⟩ := pu
    simp only at h
    split at h
    · rename_i he
      cases h
      injection he with he
      subst he
      simp
    · split at h
      · cases h; simp [intSize]
      · split at h
        · cases h; simp [intSize]
        · cases h

/-- When `Atoi` fails, the value it returns is `0` for a syntax error and `2^63 - 1` or
`-2^63` for a range error. -/
theorem Atoi_error (s : String) (v : Int) (e : NumError) (h : Atoi s = (v, some e)) :
    (e = .ErrSyntax → v = 0) ∧
      (e = .ErrRange → v = 9223372036854775807 ∨ v = -9223372036854775808) := by
  unfold Atoi at h
  simp only at h
  split at h
  · cases hd : s.data with
    | nil => rw [hd] at h; cases h; simp
    | cons c rest =>
      rw [hd] at h
      simp only at h
      generalize (if c = '-' ∨ c = '+' then rest else c :: rest) = digits at h
      split at h
      · cases h; simp
      · cases hl : atoiFastLoop 0 digits with
        | none => rw [hl] at h; cases h; simp
        | some n => rw [hl] at h; cases h
  · exact ParseInt_error _ v e h

theorem digitVal_le (c : Char) (h : isDigit c = true) : digitVal c ≤ 9 := by
  simp only [isDigit, decide_eq_true_eq] at h
  unfold digitVal
  omega

theorem foldl_digits_ge (l : List Char) :
    ∀ n, n ≤ l.foldl (fun n c => n * 10 + digitVal c) n := by
  induction l with
  | nil => intro n; exact Nat.le_refl _
  | cons c rest ih =>
    intro n
    simp only [List.foldl_cons]
    exact le_trans (by omega) (ih _)

/-- The digit loop of `ParseUint`, told from the string: a range error once the leading
digits denote `2^64` or more, else a syntax error if a byte that is not a digit follows
them, else the number denoted. -/
theorem parseUintLoop_eq (s : List Char) :
    ∀ n, n < 18446744073709551616 →
      parseUintLoop ((2 ^ 64 - 1) / 10 + 1) (2 ^ 64 - 1) n s =
        if 18446744073709551616 ≤
            (s.takeWhile isDigit).foldl (fun n c => n * 10 + digitVal c) n then
          (18446744073709551615, some .ErrRange)
        else if s.takeWhile isDigit ≠ s then (0, some .ErrSyntax)
        else ((s.takeWhile isDigit).foldl (fun n c => n * 10 + digitVal c) n, none) := by
  induction s with
  | nil =>
    intro n hn
    have : ¬ 18446744073709551616 ≤ n := by omega
    simp [parseUintLoop, this]
  | cons c rest ih =>
    intro n hn
    unfold parseUintLoop
    by_cases hc : isDigit c = true
    · have hd := digitVal_le c hc
      simp only [hc, if_true, List.takeWhile_cons, List.foldl_cons]
      have hge := foldl_digits_ge (rest.takeWhile isDigit) (n * 10 + digitVal c)
      by_cases hcut : n ≥ (2 ^ 64 - 1) / 10 + 1
      · have h1 : 18446744073709551616 ≤
            (rest.takeWhile isDigit).foldl (fun n c => n * 10 + digitVal c)
              (n * 10 + digitVal c) := by
          have : (2 ^ 64 - 1) / 10 + 1 = 1844674407370955162 := by norm_num
          omega
        simp only [hcut, if_true, h1]
        norm_num
      · have hn2 : n < 1844674407370955162 := by
          have : (2 ^ 64 - 1) / 10 + 1 = 1844674407370955162 := by norm_num
          omega
        have e1 : (n * 10) % 2 ^ 64 = n * 10 := by
          apply Nat.mod_eq_of_lt; norm_num; omega
        simp only [hcut, if_false, e1]
        by_cases hov : 18446744073709551616 ≤ n * 10 + digitVal c
        · have e2 : (n * 10 + digitVal c) % 2 ^ 64 = n * 10 + digitVal c - 18446744073709551616 := by
            have : (2:Nat) ^ 64 = 18446744073709551616 := by norm_num
            rw [this]; omega
          have h1 : 18446744073709551616 ≤
              (rest.takeWhile isDigit).foldl (fun n c => n * 10 + digitVal c)
                (n * 10 + digitVal c) := le_trans hov hge
          have h2 : n * 10 + digitVal c - 18446744073709551616 < n * 10 := by omega
          simp only [e2, h2, true_or, if_true, h1]
          norm_num
        · have e2 : (n * 10 + digitVal c) % 2 ^ 64 = n * 10 + digitVal c := by
            apply Nat.mod_eq_of_lt; norm_num; omega
          have h2 : ¬ (n * 10 + digitVal c < n * 10 ∨ n * 10 + digitVal c > 2 ^ 64 - 1) := by
            have : (2:Nat) ^ 64 - 1 = 18446744073709551615 := by norm_num
            rw [this]; omega
          simp only [e2, h2, if_false]
          rw [ih _ (by omega)]
          simp
    · have : ¬ 18446744073709551616 ≤ n := by omega
      simp [hc, this]


theorem takeWhile_all (l : List Char) (h : l.all isDigit = true) : l.takeWhile isDigit = l :=
  List.takeWhile_eq_self_iff.2 (fun x hx => List.all_eq_true.1 h x hx)

theorem takeWhile_not_all (l : List Char) (h : ¬ l.all isDigit = true) :
    l.takeWhile isDigit ≠ l :=
  fun e => h (List.all_eq_true.2 (List.takeWhile_eq_self_iff.1 e))

/-- `ParseInt` on the bytes of a string, told from the string. -/
theorem ParseInt_eq_atoiResult (s : String) : ParseInt s.data = spec.atoiResult s := by
  obtain ⟨cs⟩ := s
  cases cs with
  | nil => rfl
  | cons c rest =>
    simp only [ParseInt, spec.atoiResult, spec.unsigned, spec.negative, List.head?_cons,
      Option.some.injEq, spec.digitsValue]
    generalize (if c = '+' ∨ c = '-' then rest else c :: rest) = body
    unfold ParseUint
    by_cases hb : body = []
    · simp [hb]
    · simp only [hb, if_false, show intSize = 64 from rfl]
      rw [parseUintLoop_eq body 0 (by omega)]
      by_cases h64 : 18446744073709551616 ≤
          (body.takeWhile isDigit).foldl (fun n c => n * 10 + digitVal c) 0
      · simp only [h64, if_true]
        by_cases hneg : c = '-' <;> simp [hneg, intSize]
      · simp only [h64, if_false]
        by_cases hl : body.takeWhile isDigit = body
        · simp only [hl, ne_eq, not_true_eq_false, if_false]
          by_cases hneg : c = '-'
          · by_cases hr : 9223372036854775808 <
                body.foldl (fun n c => n * 10 + digitVal c) 0
            · simp [hneg, intSize, hr]
            · simp [hneg, intSize, hr]
          · by_cases hr : 9223372036854775808 ≤
                body.foldl (fun n c => n * 10 + digitVal c) 0
            · simp [hneg, intSize, hr]
            · simp [hneg, intSize, hr]
        · simp [hl]

theorem length_le_utf8 (cs : List Char) : cs.length ≤ String.utf8ByteSize.go cs := by
  induction cs with
  | nil => simp [String.utf8ByteSize.go]
  | cons c rest ih =>
    have := c.utf8Size_pos
    simp only [String.utf8ByteSize.go, List.length_cons]
    omega

theorem atoiFastLoop_eq (l : List Char) :
    ∀ n, atoiFastLoop n l =
      if l.all isDigit = true then some (l.foldl (fun n c => n * 10 + digitVal c) n)
      else none := by
  induction l with
  | nil => intro n; simp [atoiFastLoop]
  | cons c rest ih =>
    intro n
    by_cases hc : isDigit c = true
    · simp [atoiFastLoop, hc, ih]
    · simp [atoiFastLoop, hc]

theorem foldl_digits_lt (l : List Char) :
    ∀ n, (∀ x ∈ l, isDigit x = true) →
      l.foldl (fun n c => n * 10 + digitVal c) n < (n + 1) * 10 ^ l.length := by
  induction l with
  | nil => intro n _; simp
  | cons c rest ih =>
    intro n h
    have hd := digitVal_le c (h c (by simp))
    have := ih (n * 10 + digitVal c) (fun x hx => h x (by simp [hx]))
    simp only [List.foldl_cons, List.length_cons]
    calc _ < (n * 10 + digitVal c + 1) * 10 ^ rest.length := this
      _ ≤ ((n + 1) * 10) * 10 ^ rest.length := Nat.mul_le_mul_right _ (by omega)
      _ = (n + 1) * 10 ^ (rest.length + 1) := by rw [Nat.pow_succ]; ring

/-- Fewer than 19 leading digits denote less than `10^18`. -/
theorem digitsValue_takeWhile_lt (body : List Char) (h : body.length < 19) :
    spec.digitsValue (body.takeWhile isDigit) < 1000000000000000000 := by
  have h1 := foldl_digits_lt (body.takeWhile isDigit) 0
    (fun x hx => (List.mem_takeWhile_imp hx))
  have h2 : (body.takeWhile isDigit).length ≤ 18 := by
    have := (List.takeWhile_sublist (l := body) isDigit).length_le
    omega
  have h3 : 10 ^ (body.takeWhile isDigit).length ≤ 10 ^ 18 :=
    Nat.pow_le_pow_right (by omega) h2
  unfold spec.digitsValue
  have : (10:Nat) ^ 18 = 1000000000000000000 := by norm_num
  omega

/-- `Atoi`, told from the string: its fast path and `ParseInt` agree. -/
theorem Atoi_eq_atoiResult (s : String) : Atoi s = spec.atoiResult s := by
  unfold Atoi
  simp only
  split
  · rename_i hlen
    obtain ⟨cs⟩ := s
    have hcs : cs.length < 19 := by
      have := length_le_utf8 cs
      simp only [String.utf8ByteSize] at hlen
      omega
    cases cs with
    | nil => rfl
    | cons c rest =>
      have hbody : (spec.unsigned ⟨c :: rest⟩).length < 19 := by
        simp only [spec.unsigned]
        split <;> simp only [List.length_cons] at hcs ⊢ <;> omega
      have hlt := digitsValue_takeWhile_lt _ hbody
      have hdig : (if c = '-' ∨ c = '+' then rest else c :: rest) = spec.unsigned ⟨c :: rest⟩ := by
        simp only [spec.unsigned, or_comm]
      simp only [hdig]
      simp only [spec.atoiResult, spec.negative, List.head?_cons, Option.some.injEq]
      generalize spec.unsigned ⟨c :: rest⟩ = body at hlt ⊢
      by_cases hb : body = []
      · simp [hb]
      · have h64 : ¬ 18446744073709551616 ≤ spec.digitsValue (body.takeWhile isDigit) := by
          omega
        simp only [hb, if_false, h64, atoiFastLoop_eq]
        by_cases hall : body.all isDigit = true
        · have hl := takeWhile_all body hall
          rw [hl] at hlt
          have h1 : ¬ 9223372036854775808 < spec.digitsValue body := by omega
          have h2 : ¬ 9223372036854775808 ≤ spec.digitsValue body := by omega
          simp only [hall, if_true, hl, ne_eq, not_true_eq_false, if_false, h1, h2]
          by_cases hneg : c = '-' <;> simp [hneg, spec.digitsValue]
        · simp [hall, takeWhile_not_all body hall]
  · exact ParseInt_eq_atoiResult s


/-- A range error of `Atoi` comes with `-2^63` under a minus sign and with `2^63 - 1`
otherwise. -/
theorem Atoi_range_value (s : String) (h : (Atoi s).2 = some .ErrRange) :
    (Atoi s).1 = if spec.negative s then -9223372036854775808 else 9223372036854775807 := by
  rw [Atoi_eq_atoiResult] at h ⊢
  unfold spec.atoiResult at h ⊢
  simp only at h ⊢
  split at h
  · simp at h
  · split at h
    · simp [*]
    · split at h
      · simp at h
      · split at h
        · split at h
          · simp [*]
          · simp at h
        · split at h
          · simp [*]
          · simp at h

/-- A syntax error of `Atoi` is reported exactly when nothing follows the sign, or a byte
that is not a digit follows leading digits that denote less than `2^64`. -/
theorem Atoi_syntax_iff (s : String) :
    (Atoi s).2 = some .ErrSyntax ↔
      spec.unsigned s = [] ∨
        ((spec.unsigned s).takeWhile isDigit ≠ spec.unsigned s ∧
          spec.digitsValue ((spec.unsigned s).takeWhile isDigit) < 18446744073709551616) := by
  rw [Atoi_eq_atoiResult]
  unfold spec.atoiResult
  simp only
  by_cases hb : spec.unsigned s = []
  · simp [hb]
  · by_cases h64 : 18446744073709551616 ≤
        spec.digitsValue ((spec.unsigned s).takeWhile isDigit)
    · have : ¬ spec.digitsValue ((spec.unsigned s).takeWhile isDigit) < 18446744073709551616 := by
        omega
      simp [hb, h64, this]
    · have h64b : spec.digitsValue ((spec.unsigned s).takeWhile isDigit) < 18446744073709551616 := by
        omega
      by_cases hl : (spec.unsigned s).takeWhile isDigit = spec.unsigned s
      · rw [hl] at h64
        simp only [hb, h64, hl, if_false, ne_eq, not_true_eq_false, false_and, or_false,
          iff_false]
        split <;> split <;> simp
      · simp [hb, h64, hl, h64b]

/-- On an optionally signed string of decimal digits denoting `v`, `Atoi` returns the
integer of its range nearest to `v`, and a range error exactly when that is not `v`. -/
theorem Atoi_decimal (s : String) (v : Int) (h : spec.decimalValue s = some v) :
    Atoi s = (spec.nearestInt64 v,
      if -9223372036854775808 ≤ v ∧ v ≤ 9223372036854775807 then none else some .ErrRange) := by
  unfold spec.decimalValue at h
  split at h
  · rename_i hd
    obtain ⟨hb, hall⟩ := hd
    have hl := takeWhile_all _ hall
    rw [Atoi_eq_atoiResult]
    unfold spec.atoiResult
    simp only [hb, if_false, hl, ne_eq, not_true_eq_false]
    generalize spec.digitsValue (spec.unsigned s) = n at h ⊢
    unfold spec.nearestInt64
    by_cases hneg : spec.negative s = true
    · simp only [hneg, if_true, Option.some.injEq] at h ⊢
      subst h
      by_cases h64 : 18446744073709551616 ≤ n
      · have e1 : max (-9223372036854775808 : Int) (min 9223372036854775807 (-(n : Int))) =
            -9223372036854775808 := by omega
        have e2 : ¬ ((-9223372036854775808 : Int) ≤ -(n : Int) ∧
            -(n : Int) ≤ 9223372036854775807) := by omega
        simp only [h64, if_true]
        rw [e1, if_neg e2]
      · by_cases h63 : 9223372036854775808 < n
        · have e1 : max (-9223372036854775808 : Int) (min 9223372036854775807 (-(n : Int))) =
              -9223372036854775808 := by omega
          have e2 : ¬ ((-9223372036854775808 : Int) ≤ -(n : Int) ∧
              -(n : Int) ≤ 9223372036854775807) := by omega
          simp only [h64, if_false, h63, if_true]
          rw [e1, if_neg e2]
        · have e1 : max (-9223372036854775808 : Int) (min 9223372036854775807 (-(n : Int))) =
              -(n : Int) := by omega
          have e2 : ((-9223372036854775808 : Int) ≤ -(n : Int) ∧
              -(n : Int) ≤ 9223372036854775807) := by omega
          simp only [h64, if_false, h63]
          rw [e1, if_pos e2]
    · have hf : spec.negative s = false := by simpa using hneg
      simp only [hf, Bool.false_eq_true, if_false, Option.some.injEq] at h ⊢
      subst h
      by_cases h64 : 18446744073709551616 ≤ n
      · have e1 : max (-9223372036854775808 : Int) (min 9223372036854775807 (n : Int)) =
            9223372036854775807 := by omega
        have e2 : ¬ ((-9223372036854775808 : Int) ≤ (n : Int) ∧
            (n : Int) ≤ 9223372036854775807) := by omega
        simp only [h64, if_true]
        rw [e1, if_neg e2]
      · by_cases h63 : 9223372036854775808 ≤ n
        · have e1 : max (-9223372036854775808 : Int) (min 9223372036854775807 (n : Int)) =
              9223372036854775807 := by omega
          have e2 : ¬ ((-9223372036854775808 : Int) ≤ (n : Int) ∧
              (n : Int) ≤ 9223372036854775807) := by omega
          simp only [h64, if_false, h63, if_true]
          rw [e1, if_neg e2]
        · have e1 : max (-9223372036854775808 : Int) (min 9223372036854775807 (n : Int)) =
              (n : Int) := by omega
          have e2 : ((-9223372036854775808 : Int) ≤ (n : Int) ∧
              (n : Int) ≤ 9223372036854775807) := by omega
          simp only [h64, if_false, h63]
          rw [e1, if_pos e2]
  · cases h

/-- On a string that is not an optionally signed string of decimal digits, `Atoi` reports
an error. -/
theorem Atoi_not_decimal (s : String) (h : spec.decimalValue s = none) :
    (Atoi s).2 ≠ none := by
  unfold spec.decimalValue at h
  split at h
  · cases h
  · rename_i hd
    rw [Atoi_eq_atoiResult]
    unfold spec.atoiResult
    simp only
    by_cases hb : spec.unsigned s = []
    · simp [hb]
    · have hall : ¬ (spec.unsigned s).all isDigit = true := fun e => hd ⟨hb, e⟩
      have hl := takeWhile_not_all _ hall
      simp only [hb, if_false, hl, ne_eq, not_false_eq_true, if_true]
      split <;> simp

end strconv


/-! ## Facts about the `time` layouts and `formatDate` -/

namespace time

theorem isDigit_digitChar (d : Nat) (h : d < 10) : strconv.isDigit (digitChar d) = true := by
  interval_cases d <;> rfl

theorem digitVal_digitChar (d : Nat) (h : d < 10) : strconv.digitVal (digitChar d) = d := by
  interval_cases d <;> rfl

/-- At least `width` bytes are written by `appendInt`. -/
theorem appendInt_length (x : Int) (width : Nat) : width ≤ (appendInt x width).length := by
  unfold appendInt
  simp only
  split
  · rename_i h; simp; omega
  · split
    · rename_i h; simp; omega
    · simp; omega

/-- The RFC 3339 form of a time is never shorter than ten bytes, so `[:10]` is defined. -/
theorem formatRFC3339_length (t : Time) : 10 ≤ (formatRFC3339 t).length := by
  have h1 := appendInt_length t.year 4
  have h2 := appendInt_length t.month 2
  have h3 := appendInt_length t.day 2
  simp only [formatRFC3339, List.length_append, List.length_cons]
  omega

theorem appendInt_two (n : Nat) (h : n < 100) : appendInt (n : Int) 2 = spec.twoDigits n := by
  have h0 : ¬ ((n : Int) < 0) := by omega
  simp [appendInt, h, h0, spec.twoDigits, digitChar]

theorem appendInt_four (n : Nat) (h : n < 10000) :
    appendInt (n : Int) 4 = spec.fourDigits n := by
  have h0 : ¬ ((n : Int) < 0) := by omega
  simp [appendInt, h, h0, spec.fourDigits, digitChar]

theorem daysIn_le (m : Nat) (y : Int) : daysIn m y ≤ 31 := by
  unfold daysIn
  split
  · omega
  · split <;> omega

/-- The first ten bytes of the RFC 3339 form are the date `YYYY-MM-DD`. -/
theorem formatRFC3339_take (t : Time) (y : Nat) (hy : t.year = y) (hy4 : y < 10000)
    (hm : t.month < 100) (hd : t.day < 100) :
    (formatRFC3339 t).take 10 =
      spec.fourDigits y ++ '-' :: spec.twoDigits t.month ++ '-' :: spec.twoDigits t.day := by
  simp only [formatRFC3339, hy, appendInt_four y hy4, appendInt_two _ hm, appendInt_two _ hd]
  simp [spec.fourDigits, spec.twoDigits]

/-- Parsing the date `YYYY-MM-DD` of an existing day gives that day back. -/
theorem parseDate_digits (y m d : Nat) (hy : y < 10000) (hm1 : 1 ≤ m) (hm2 : m ≤ 12)
    (hd1 : 1 ≤ d) (hd2 : d ≤ daysIn m y) :
    parseDate (spec.fourDigits y ++ '-' :: spec.twoDigits m ++ '-' :: spec.twoDigits d) =
      some { year := y, month := m, day := d, hour := 0, minute := 0, second := 0,
             offset := 0 } := by
  have hd3 : d ≤ 31 := le_trans hd2 (daysIn_le m y)
  have e1 := isDigit_digitChar (y / 1000) (by omega)
  have e2 := isDigit_digitChar (y / 100 % 10) (by omega)
  have e3 := isDigit_digitChar (y / 10 % 10) (by omega)
  have e4 := isDigit_digitChar (y % 10) (by omega)
  have e5 := isDigit_digitChar (m / 10) (by omega)
  have e6 := isDigit_digitChar (m % 10) (by omega)
  have e7 := isDigit_digitChar (d / 10) (by omega)
  have e8 := isDigit_digitChar (d % 10) (by omega)
  have v1 := digitVal_digitChar (y / 1000) (by omega)
  have v2 := digitVal_digitChar (y / 100 % 10) (by omega)
  have v3 := digitVal_digitChar (y / 10 % 10) (by omega)
  have v4 := digitVal_digitChar (y % 10) (by omega)
  have v5 := digitVal_digitChar (m / 10) (by omega)
  have v6 := digitVal_digitChar (m % 10) (by omega)
  have v7 := digitVal_digitChar (d / 10) (by omega)
  have v8 := digitVal_digitChar (d % 10) (by omega)
  have ey2 : (((0 * 10 + y / 1000) * 10 + y / 100 % 10) * 10 + y / 10 % 10) * 10 + y % 10 = y := by
    omega
  have em : m / 10 * 10 + m % 10 = m := by omega
  have ed : d / 10 * 10 + d % 10 = d := by omega
  unfold digitChar at *
  simp [parseDate, spec.fourDigits, spec.twoDigits, isDigitAt, atoi, getnum, skipDash,
    e1, e2, e3, e4, e5, e6, e7, e8, v1, v2, v3, v4, v5, v6, v7, v8, ey2, em, ed]
  have key : (((y : Int) / 1000 * 10 + (y : Int) / 100 % 10) * 10 + (y : Int) / 10 % 10) * 10 +
      (y : Int) % 10 = (y : Int) := by omega
  rw [key]
  exact ⟨⟨by omega, hm2⟩, ⟨by omega, hd2⟩, rfl⟩


theorem monthName_take (m : Nat) (hm1 : 1 ≤ m) (hm2 : m ≤ 12) :
    (monthName m).data.take 3 = (spec.monthAbbrev m).data := by
  interval_cases m <;> rfl

end time

namespace repository

/-- For a time that exists, with a year from 0 to 9999, `formatDate` gives the display
form of its calendar date. -/
theorem formatDate_eq_displayDate (t : time.Time) (hv : t.valid) (h0 : 0 ≤ t.year)
    (h1 : t.year ≤ 9999) :
    formatDate t = spec.displayDate t.year.toNat t.month t.day := by
  obtain ⟨hm1, hm2, hd1, hd2, -, -, -⟩ := hv
  have hy : t.year = (t.year.toNat : Int) := (Int.toNat_of_nonneg h0).symm
  have hy4 : t.year.toNat < 10000 := by omega
  have hd3 : t.day ≤ 31 := le_trans hd2 (time.daysIn_le _ _)
  rw [hy] at hd2
  unfold formatDate
  simp only
  rw [time.formatRFC3339_take t _ hy hy4 (by omega) (by omega),
    time.parseDate_digits _ _ _ hy4 hm1 hm2 hd1 hd2]
  simp only [Option.getD_some, time.formatDayMonYear, spec.displayDate,
    time.appendInt_two _ (show t.day < 100 by omega), time.appendInt_four _ hy4,
    time.monthName_take _ hm1 hm2]
  simp

end repository

namespace sql

theorem convertTime_ok (v : Value) (t : time.Time) : convertTime v = .ok t ↔ v = .time t := by
  cases v <;> simp [convertTime]

theorem bind_ok {α β : Type} (x : Except Error α) (f : α → Except Error β) (b : β) :
    (x >>= f) = .ok b ↔ ∃ a, x = .ok a ∧ f a = .ok b := by
  cases x with
  | error e => simp [bind, Except.bind]
  | ok a => simp [bind, Except.bind]

end sql

namespace repository

open sql domain

/-- A successful `Scan` of `FetchRecipe` read a row of fourteen columns and converted each
column into the destination of the same position. -/
theorem scanRecipe_ok (row : Row) (d : RecipeDest) (h : scanRecipe row = .ok d) :
    ∃ c0 c1 c2 c3 c4 c5 c6 c7 c8 c9 c10 c11 c12 c13,
      row = .ok [c0, c1, c2, c3, c4, c5, c6, c7, c8, c9, c10, c11, c12, c13] ∧
      convertInt c0 = .ok d.ID ∧ convertString c1 = .ok d.Title ∧
      convertString c2 = .ok d.Description ∧ convertInt c3 = .ok d.AuthorID ∧
      convertInt c4 = .ok d.CategoryID ∧ convertInt c5 = .ok d.DificultyID ∧
      convertInt c6 = .ok d.Rating ∧ convertInt c7 = .ok d.PreparationTime ∧
      convertString c8 = .ok d.Serving ∧ convertString c9 = .ok d.ingredients ∧
      convertString c10 = .ok d.steps ∧ convertInt c11 = .ok d.AccessCount ∧
      convertString c12 = .ok d.ImageURL ∧ c13 = .time d.publishedDateTime := by
  unfold scanRecipe at h
  split at h
  · cases h
  · rename_i c0 c1 c2 c3 c4 c5 c6 c7 c8 c9 c10 c11 c12 c13
    simp only [bind_ok, convertTime_ok] at h
    obtain ⟨_, h0, _, h1, _, h2, _, h3, _, h4, _, h5, _, h6, _, h7, _, h8, _, h9,
      _, h10, _, h11, _, h12, _, h13, h⟩ := h
    cases h
    exact ⟨c0, c1, c2, c3, c4, c5, c6, c7, c8, c9, c10, c11, c12, c13, rfl, h0, h1, h2, h3,
      h4, h5, h6, h7, h8, h9, h10, h11, h12, h13⟩
  · cases h

/-- The columns of a successfully scanned row that the lists and the date are made of. -/
theorem scanRecipe_columns (row : Row) (d : RecipeDest) (h : scanRecipe row = .ok d) :
    ∃ cols c9 c10, row = .ok cols ∧ cols.get? 9 = some c9 ∧ cols.get? 10 = some c10 ∧
      cols.get? 13 = some (.time d.publishedDateTime) ∧
      convertString c9 = .ok d.ingredients ∧ convertString c10 = .ok d.steps := by
  obtain ⟨c0, c1, c2, c3, c4, c5, c6, c7, c8, c9, c10, c11, c12, c13, rfl, -, -, -, -, -, -,
    -, -, -, h9, h10, -, -, rfl⟩ := scanRecipe_ok row d h
  exact ⟨_, c9, c10, rfl, rfl, rfl, rfl, h9, h10⟩

/-- A text column is scanned into a string destination as it is. -/
theorem convertString_text (c : Value) (s t : String) (h : convertString c = .ok t)
    (hc : c = .text s) : t = s := by
  subst hc
  simp only [convertString, Except.ok.injEq] at h
  exact h.symm

/-- When `Scan` succeeds, `FetchRecipe` returns the record built from the destinations and
no error. -/
theorem FetchRecipe_scanned {σ : Type} (db : DB σ) (recipeID : Int) (st : σ) (d : RecipeDest)
    (h : scanRecipe (db.QueryRow fetchRecipeStatement [.int recipeID] st).1 = .ok d) :
    (FetchRecipe db recipeID st).1 =
      (some
        { ID := d.ID, Title := d.Title, Description := d.Description,
          Author := { ID := d.AuthorID, Name := "" },
          Category := { ID := d.CategoryID, Name := "" },
          Dificulty := { ID := d.DificultyID, Name := "" },
          Rating := d.Rating, PreparationTime := d.PreparationTime, Serving := d.Serving,
          Ingredients := strings.Split d.ingredients '|',
          Steps := strings.Split d.steps '|',
          AccessCount := d.AccessCount, ImageURL := d.ImageURL,
          PublishedDate := formatDate d.publishedDateTime }, none) := by
  unfold FetchRecipe
  cases hq : db.QueryRow fetchRecipeStatement [.int recipeID] st with
  | mk row st1 =>
    rw [hq] at h
    simp only at h
    simp only [h, switchErr]

/-- When `FetchRecipe` returns a record, `Scan` succeeded and the record is built from the
scanned destinations. -/
theorem FetchRecipe_some {σ : Type} (db : DB σ) (recipeID : Int) (st : σ) (recipe : Recipe)
    (h : (FetchRecipe db recipeID st).1 = (some recipe, none)) :
    ∃ d, scanRecipe (db.QueryRow fetchRecipeStatement [.int recipeID] st).1 = .ok d ∧
      recipe =
        { ID := d.ID, Title := d.Title, Description := d.Description,
          Author := { ID := d.AuthorID, Name := "" },
          Category := { ID := d.CategoryID, Name := "" },
          Dificulty := { ID := d.DificultyID, Name := "" },
          Rating := d.Rating, PreparationTime := d.PreparationTime, Serving := d.Serving,
          Ingredients := strings.Split d.ingredients '|',
          Steps := strings.Split d.steps '|',
          AccessCount := d.AccessCount, ImageURL := d.ImageURL,
          PublishedDate := formatDate d.publishedDateTime } := by
  unfold FetchRecipe at h
  cases hq : db.QueryRow fetchRecipeStatement [.int recipeID] st with
  | mk row st1 =>
    rw [hq] at h
    simp only at h
    cases hs : scanRecipe row with
    | error e =>
      rw [hs] at h
      cases e <;> simp [switchErr] at h
    | ok d =>
      rw [hs] at h
      simp only [switchErr, Prod.mk.injEq, Option.some.injEq, and_true] at h
      exact ⟨d, rfl, h.symm⟩

/-- The outcome of `FetchRecipe` when `Scan` reports the error `e`. -/
theorem FetchRecipe_error {σ : Type} (db : DB σ) (recipeID : Int) (st : σ) (e : Error)
    (h : scanRecipe (db.QueryRow fetchRecipeStatement [.int recipeID] st).1 = .error e) :
    (FetchRecipe db recipeID st).1 =
      if e = .ErrNoRows then (none, none) else (none, some e) := by
  unfold FetchRecipe
  cases hq : db.QueryRow fetchRecipeStatement [.int recipeID] st with
  | mk row st1 =>
    rw [hq] at h
    simp only at h
    simp only [h]
    cases e <;> simp [switchErr]

theorem FetchAuthor_error {σ : Type} (db : DB σ) (ID : Int) (st : σ) (e : Error)
    (h : scanIdName (db.QueryRow (.selectWhereId ["id", "name"] "author") [.int ID] st).1 =
      .error e) :
    (FetchAuthor db ID st).1 = if e = .ErrNoRows then (none, none) else (none, some e) := by
  unfold FetchAuthor
  cases hq : db.QueryRow (.selectWhereId ["id", "name"] "author") [.int ID] st with
  | mk row st1 =>
    rw [hq] at h
    simp only at h
    simp only [h]
    cases e <;> simp [switchErr]

theorem FetchCategory_error {σ : Type} (db : DB σ) (ID : Int) (st : σ) (e : Error)
    (h : scanIdName (db.QueryRow (.selectWhereId ["id", "name"] "category") [.int ID] st).1 =
      .error e) :
    (FetchCategory db ID st).1 = if e = .ErrNoRows then (none, none) else (none, some e) := by
  unfold FetchCategory
  cases hq : db.QueryRow (.selectWhereId ["id", "name"] "category") [.int ID] st with
  | mk row st1 =>
    rw [hq] at h
    simp only at h
    simp only [h]
    cases e <;> simp [switchErr]

theorem FetchDificulty_error {σ : Type} (db : DB σ) (ID : Int) (st : σ) (e : Error)
    (h : scanIdName (db.QueryRow (.selectWhereId ["id", "name"] "dificulty") [.int ID] st).1 =
      .error e) :
    (FetchDificulty db ID st).1 = if e = .ErrNoRows then (none, none) else (none, some e) := by
  unfold FetchDificulty
  cases hq : db.QueryRow (.selectWhereId ["id", "name"] "dificulty") [.int ID] st with
  | mk row st1 =>
    rw [hq] at h
    simp only at h
    simp only [h]
    cases e <;> simp [switchErr]

end repository

namespace store

open sql repository domain

/-- What `InsertRecipe` does on the modelled store, case by case. -/
theorem InsertRecipe_store (schema : Schema) (r : Request) (s : Store) :
    InsertRecipe (db schema) r s =
      if (s.tables "recipe").any (hasId (.int (schema.nextId s))) then
        ((0, some (.other "pq: duplicate key value violates unique constraint")), s)
      else match schema.refusal s (newRecord schema r s) with
        | some e => ((0, some e), s)
        | none => ((schema.nextId s, none),
            s.set "recipe" (s.tables "recipe" ++ [newRecord schema r s])) := by
  have hl : insertRecipeColumns.length = (insertRecipeArgs r).length := rfl
  unfold InsertRecipe
  simp only [db, insertRecipeStatement, queryRow, insertRecipe, hl, ne_eq, not_true_eq_false,
    if_false]
  by_cases hany : (s.tables "recipe").any (hasId (.int (schema.nextId s))) = true
  · have hany1 : (s.tables "recipe").any (hasId (column (newRecord schema r s) "id")) = true :=
      hany
    simp only [newRecord] at hany1
    simp only [hany, hany1, if_true]
    rfl
  · have hany1 : ¬ (s.tables "recipe").any (hasId (column (newRecord schema r s) "id")) = true :=
      hany
    have hverdict : ∀ o : Option Error, o = schema.refusal s (newRecord schema r s) →
        o = schema.refusal s (insertRecipeColumns.zip (insertRecipeArgs r) ++
          [("id", .int (schema.nextId s)), ("rating", .int (schema.rating s)),
           ("access_count", .int (schema.accessCount s)),
           ("published_date", .time (schema.publishedDate s))]) := fun _ h => h
    simp only [newRecord] at hany1
    simp only [hany, hany1, if_false]
    cases ha : schema.refusal s (newRecord schema r s) with
    | some e => rw [← hverdict _ ha.symm]; rfl
    | none => rw [← hverdict _ ha.symm]; rfl

/-- An accepted `InsertRecipe` returns the id the store assigned, which no earlier row
has, and leaves the new row after the earlier ones. -/
theorem InsertRecipe_accepted (schema : Schema) (r : Request) (s s1 : Store) (id : Int)
    (h : InsertRecipe (db schema) r s = ((id, none), s1)) :
    id = schema.nextId s ∧ (s.tables "recipe").any (hasId (.int id)) = false ∧
      s1 = s.set "recipe" (s.tables "recipe" ++ [newRecord schema r s]) := by
  rw [InsertRecipe_store] at h
  split at h
  · simp at h
  · rename_i hany
    split at h
    · simp at h
    · simp only [Prod.mk.injEq, and_true] at h
      obtain ⟨rfl, rfl⟩ := h
      exact ⟨rfl, by simpa using hany, rfl⟩

/-- Looking up an id that only the last row has finds the last row. -/
theorem find_last (rows : List Record) (rcd : Record) (key : Value)
    (h1 : rows.any (hasId key) = false) (h2 : hasId key rcd = true) :
    (rows ++ [rcd]).find? (hasId key) = some rcd := by
  induction rows with
  | nil => simp [List.find?, h2]
  | cons x xs ih =>
    simp only [List.any_cons, Bool.or_eq_false_iff] at h1
    simp [List.find?, h1.1, ih h1.2]

/-- What `FetchRecipe` returns in a state whose first row with the id is `newRecord`. -/
theorem FetchRecipe_newRecord (schema : Schema) (r : Request) (s s1 : Store)
    (h : (s1.tables "recipe").find? (hasId (.int (schema.nextId s))) =
      some (newRecord schema r s)) :
    (FetchRecipe (db schema) (schema.nextId s) s1).1 = (some (readBack schema r s), none) := by
  unfold FetchRecipe
  simp only [db, fetchRecipeStatement, queryRow, h]
  rfl

end store

/-! ## The claims -/

namespace repository

open sql domain

/-- C1: for every handle, state and id, each of `FetchRecipe`, `FetchAuthor`,
`FetchCategory` and `FetchDificulty` whose `Scan` reports `sql.ErrNoRows` returns the
absence signal: no record and no error. -/
theorem fetch_by_id_no_rows_is_absence {σ : Type} (db : DB σ) (id : Int) (st : σ) :
    (scanRecipe (db.QueryRow fetchRecipeStatement [.int id] st).1 = .error .ErrNoRows →
      (FetchRecipe db id st).1 = (none, none)) ∧
    (scanIdName (db.QueryRow (.selectWhereId ["id", "name"] "author") [.int id] st).1 =
        .error .ErrNoRows →
      (FetchAuthor db id st).1 = (none, none)) ∧
    (scanIdName (db.QueryRow (.selectWhereId ["id", "name"] "category") [.int id] st).1 =
        .error .ErrNoRows →
      (FetchCategory db id st).1 = (none, none)) ∧
    (scanIdName (db.QueryRow (.selectWhereId ["id", "name"] "dificulty") [.int id] st).1 =
        .error .ErrNoRows →
      (FetchDificulty db id st).1 = (none, none)) :=
  ⟨fun h => by rw [FetchRecipe_error db id st _ h]; rfl,
   fun h => by rw [FetchAuthor_error db id st _ h]; rfl,
   fun h => by rw [FetchCategory_error db id st _ h]; rfl,
   fun h => by rw [FetchDificulty_error db id st _ h]; rfl⟩

/-- On the store without rows all four fetch-by-id methods return the absence signal. -/
theorem fetch_by_id_no_rows_is_absence_witness :
    (FetchRecipe (store.db store.sampleSchema) 7 store.empty).1 = (none, none) ∧
    (FetchAuthor (store.db store.sampleSchema) 7 store.empty).1 = (none, none) ∧
    (FetchCategory (store.db store.sampleSchema) 7 store.empty).1 = (none, none) ∧
    (FetchDificulty (store.db store.sampleSchema) 7 store.empty).1 = (none, none) :=
  ⟨(fetch_by_id_no_rows_is_absence (store.db store.sampleSchema) 7 store.empty).1 rfl,
   (fetch_by_id_no_rows_is_absence (store.db store.sampleSchema) 7 store.empty).2.1 rfl,
   (fetch_by_id_no_rows_is_absence (store.db store.sampleSchema) 7 store.empty).2.2.1 rfl,
   (fetch_by_id_no_rows_is_absence (store.db store.sampleSchema) 7 store.empty).2.2.2 rfl⟩

/-- C2: for every handle, state, id and error `e` other than `sql.ErrNoRows`, each of the
four fetch-by-id methods whose `Scan` reports `e` returns no record together with `e`
itself. -/
theorem fetch_by_id_propagates_failure {σ : Type} (db : DB σ) (id : Int) (st : σ) (e : Error)
    (he : e ≠ .ErrNoRows) :
    (scanRecipe (db.QueryRow fetchRecipeStatement [.int id] st).1 = .error e →
      (FetchRecipe db id st).1 = (none, some e)) ∧
    (scanIdName (db.QueryRow (.selectWhereId ["id", "name"] "author") [.int id] st).1 =
        .error e →
      (FetchAuthor db id st).1 = (none, some e)) ∧
    (scanIdName (db.QueryRow (.selectWhereId ["id", "name"] "category") [.int id] st).1 =
        .error e →
      (FetchCategory db id st).1 = (none, some e)) ∧
    (scanIdName (db.QueryRow (.selectWhereId ["id", "name"] "dificulty") [.int id] st).1 =
        .error e →
      (FetchDificulty db id st).1 = (none, some e)) :=
  ⟨fun h => by rw [FetchRecipe_error db id st _ h, if_neg he],
   fun h => by rw [FetchAuthor_error db id st _ h, if_neg he],
   fun h => by rw [FetchCategory_error db id st _ h, if_neg he],
   fun h => by rw [FetchDificulty_error db id st _ h, if_neg he]⟩

/-- On a store that refuses every request with "connection refused", all four
fetch-by-id methods return that error and no record. -/
theorem fetch_by_id_propagates_failure_witness :
    Error.other "dial tcp: connection refused" ≠ .ErrNoRows ∧
    (FetchRecipe (spec.failing (.other "dial tcp: connection refused")) 7 ()).1 =
      (none, some (.other "dial tcp: connection refused")) ∧
    (FetchAuthor (spec.failing (.other "dial tcp: connection refused")) 7 ()).1 =
      (none, some (.other "dial tcp: connection refused")) ∧
    (FetchCategory (spec.failing (.other "dial tcp: connection refused")) 7 ()).1 =
      (none, some (.other "dial tcp: connection refused")) ∧
    (FetchDificulty (spec.failing (.other "dial tcp: connection refused")) 7 ()).1 =
      (none, some (.other "dial tcp: connection refused")) :=
  ⟨by decide,
   (fetch_by_id_propagates_failure (spec.failing (.other "dial tcp: connection refused")) 7 ()
      (.other "dial tcp: connection refused") (by decide)).1 rfl,
   (fetch_by_id_propagates_failure (spec.failing (.other "dial tcp: connection refused")) 7 ()
      (.other "dial tcp: connection refused") (by decide)).2.1 rfl,
   (fetch_by_id_propagates_failure (spec.failing (.other "dial tcp: connection refused")) 7 ()
      (.other "dial tcp: connection refused") (by decide)).2.2.1 rfl,
   (fetch_by_id_propagates_failure (spec.failing (.other "dial tcp: connection refused")) 7 ()
      (.other "dial tcp: connection refused") (by decide)).2.2.2 rfl⟩

/-- C3: for every row that the `Scan` of `FetchRecipe` reads successfully, `FetchRecipe`
returns a record and no error.  The strings `Scan` made of the tenth and the eleventh
column (the stored text itself when the column holds a text) are split at `|` into the
record's `Ingredients` and `Steps`: no piece contains `|`, joining the pieces with `|`
gives the string back, no other non-empty list of pieces free of `|` does so,
`"eggs|flour|milk"` yields `["eggs", "flour", "milk"]`, and a string without `|` yields
the list of that string alone. -/
theorem FetchRecipe_splits_lists {σ : Type} (db : DB σ) (recipeID : Int) (st : σ)
    (d : RecipeDest)
    (h : scanRecipe (db.QueryRow fetchRecipeStatement [.int recipeID] st).1 = .ok d) :
    ∃ recipe cols c9 c10,
      (FetchRecipe db recipeID st).1 = (some recipe, none) ∧
      (db.QueryRow fetchRecipeStatement [.int recipeID] st).1 = .ok cols ∧
      cols.get? 9 = some c9 ∧ cols.get? 10 = some c10 ∧
      convertString c9 = .ok d.ingredients ∧ convertString c10 = .ok d.steps ∧
      (∀ s, c9 = .text s → d.ingredients = s) ∧ (∀ s, c10 = .text s → d.steps = s) ∧
      recipe.Ingredients = strings.Split d.ingredients '|' ∧
      recipe.Steps = strings.Split d.steps '|' ∧
      (∀ p ∈ recipe.Ingredients, ¬ strings.Contains p '|') ∧
      (∀ p ∈ recipe.Steps, ¬ strings.Contains p '|') ∧
      strings.Join recipe.Ingredients '|' = d.ingredients ∧
      strings.Join recipe.Steps '|' = d.steps ∧
      (d.ingredients = "eggs|flour|milk" → recipe.Ingredients = ["eggs", "flour", "milk"]) ∧
      (d.steps = "eggs|flour|milk" → recipe.Steps = ["eggs", "flour", "milk"]) ∧
      (¬ strings.Contains d.ingredients '|' → recipe.Ingredients = [d.ingredients]) ∧
      (¬ strings.Contains d.steps '|' → recipe.Steps = [d.steps]) ∧
      (∀ l : List String, l ≠ [] → (∀ p ∈ l, ¬ strings.Contains p '|') →
        strings.Join l '|' = d.ingredients → recipe.Ingredients = l) ∧
      (∀ l : List String, l ≠ [] → (∀ p ∈ l, ¬ strings.Contains p '|') →
        strings.Join l '|' = d.steps → recipe.Steps = l) := by
  obtain ⟨cols, c9, c10, hrow, h9, h10, -, hc9, hc10⟩ := scanRecipe_columns _ d h
  refine ⟨_, cols, c9, c10, FetchRecipe_scanned db recipeID st d h, hrow, h9, h10, hc9, hc10,
    fun s hs => convertString_text c9 s _ hc9 hs, fun s hs => convertString_text c10 s _ hc10 hs,
    rfl, rfl, strings.Split_no_sep _ _, strings.Split_no_sep _ _, strings.Join_Split _ _,
    strings.Join_Split _ _, ?_, ?_, strings.Split_of_not_Contains _ _,
    strings.Split_of_not_Contains _ _, ?_, ?_⟩
  · intro e; simp only [e]; decide
  · intro e; simp only [e]; decide
  · intro l hne hl hj
    simp only [← hj]
    exact strings.Split_Join l _ hne hl
  · intro l hne hl hj
    simp only [← hj]
    exact strings.Split_Join l _ hne hl

/-- The pancake recipe stored with the ingredients `"eggs|flour|milk"` and the steps
`"mix|fry"` is fetched with three ingredients and two steps. -/
theorem FetchRecipe_splits_lists_witness :
    scanRecipe ((store.db store.sampleSchema).QueryRow fetchRecipeStatement [.int 1]
      store.sampleState).1 = .ok store.sampleDest ∧
    ((FetchRecipe (store.db store.sampleSchema) 1 store.sampleState).1.1.map
      (fun recipe => (recipe.Ingredients, recipe.Steps))) =
      some (["eggs", "flour", "milk"], ["mix", "fry"]) := by
  refine ⟨rfl, ?_⟩
  obtain ⟨recipe, cols, c9, c10, hf, -, -, -, -, -, -, -, hi, hs, -⟩ :=
    FetchRecipe_splits_lists (store.db store.sampleSchema) 1 store.sampleState
      store.sampleDest rfl
  rw [hf]
  simp only [Option.map, hi, hs]
  decide

end repository

namespace repository

open sql domain

/-- C4: for every existing time with a year from 0000 to 9999, `formatDate` returns the
display form of its calendar date (two-digit day, `/`, three-letter month abbreviation,
`/`, four-digit year); 2021-01-02T00:00:00Z yields `"02/Jan/2021"`; and whenever the
`Scan` of `FetchRecipe` succeeds, `FetchRecipe` returns a record whose `PublishedDate` is
`formatDate` of the time in the fourteenth column of the row, hence this display form when
that time is the given one. -/
theorem formatDate_displays_calendar_date (t : time.Time) (hv : t.valid) (h0 : 0 ≤ t.year)
    (h1 : t.year ≤ 9999) :
    formatDate t = spec.displayDate t.year.toNat t.month t.day ∧
    formatDate { year := 2021, month := 1, day := 2, hour := 0, minute := 0, second := 0,
                 offset := 0 } = "02/Jan/2021" ∧
    ∀ (σ : Type) (db : DB σ) (recipeID : Int) (st : σ) (d : RecipeDest),
      scanRecipe (db.QueryRow fetchRecipeStatement [.int recipeID] st).1 = .ok d →
      ∃ recipe cols,
        (FetchRecipe db recipeID st).1 = (some recipe, none) ∧
        (db.QueryRow fetchRecipeStatement [.int recipeID] st).1 = .ok cols ∧
        cols.get? 13 = some (.time d.publishedDateTime) ∧
        recipe.PublishedDate = formatDate d.publishedDateTime ∧
        (d.publishedDateTime = t →
          recipe.PublishedDate = spec.displayDate t.year.toNat t.month t.day) := by
  refine ⟨formatDate_eq_displayDate t hv h0 h1, by decide, ?_⟩
  intro σ db recipeID st d h
  obtain ⟨cols, c9, c10, hrow, -, -, h13, -, -⟩ := scanRecipe_columns _ d h
  refine ⟨_, cols, FetchRecipe_scanned db recipeID st d h, hrow, h13, rfl, ?_⟩
  intro e
  simp only [e]
  exact formatDate_eq_displayDate t hv h0 h1

/-- The afternoon of 29 February 2024 in a zone two hours east of UTC is displayed as
`"29/Feb/2024"`, and the recipe stored with the published date 2021-01-02T00:00:00Z is
fetched with the `PublishedDate` `"02/Jan/2021"`. -/
theorem formatDate_displays_calendar_date_witness :
    formatDate { year := 2024, month := 2, day := 29, hour := 17, minute := 45, second := 9,
                 offset := 7200 } = "29/Feb/2024" ∧
    ((FetchRecipe (store.db store.sampleSchema) 1 store.sampleState).1.1.map
      (fun recipe => recipe.PublishedDate)) = some "02/Jan/2021" := by
  constructor
  · rw [(formatDate_displays_calendar_date
      { year := 2024, month := 2, day := 29, hour := 17, minute := 45, second := 9,
        offset := 7200 } (by decide) (by decide) (by decide)).1]
    decide
  · obtain ⟨recipe, cols, hf, -, -, -, hp⟩ :=
      (formatDate_displays_calendar_date
        { year := 2021, month := 1, day := 2, hour := 0, minute := 0, second := 0, offset := 0 }
        (by decide) (by decide) (by decide)).2.2 store.Store (store.db store.sampleSchema) 1
        store.sampleState store.sampleDest rfl
    rw [hf]
    simp only [Option.map, hp rfl]
    decide

/-- C5: for a non-empty list, splitting its `|`-joined form at `|` gives the list back if
and only if no element contains `|`. -/
theorem split_join_roundtrip_iff (l : List String) (hne : l ≠ []) :
    strings.Split (strings.Join l '|') '|' = l ↔ ∀ x ∈ l, ¬ strings.Contains x '|' := by
  constructor
  · intro h x hx
    rw [← h] at hx
    exact strings.Split_no_sep _ _ x hx
  · exact strings.Split_Join l '|' hne

/-- The list `["salt", "a|b"]` has an element with `|` and does not come back: it is read
as three ingredients. -/
theorem split_join_roundtrip_iff_witness :
    (strings.Split (strings.Join ["salt", "a|b"] '|') '|' = ["salt", "a|b"] ↔
      ∀ x ∈ ["salt", "a|b"], ¬ strings.Contains x '|') ∧
    strings.Split (strings.Join ["salt", "a|b"] '|') '|' = ["salt", "a", "b"] :=
  ⟨split_join_roundtrip_iff ["salt", "a|b"] (by decide), by decide⟩

/-- C6: on the modelled store, when `InsertRecipe` is accepted and returns `id`, a
`FetchRecipe` of `id` in the state it leaves returns a record and no error; the record has
the id `id`, the submitted title, description, serving and image URL, the category id,
difficulty id and preparation time that `Atoi` made of the submitted fields, the
`|`-splits of the submitted ingredients and steps, the author id 2, and the store's
defaults for rating, access count and published date. -/
theorem insert_then_fetch_roundtrip (schema : store.Schema) (r : Request) (s s1 : store.Store)
    (id : Int) (h : InsertRecipe (store.db schema) r s = ((id, none), s1)) :
    (FetchRecipe (store.db schema) id s1).1 =
      (some
        { ID := id
          Title := r.FormValue "title"
          Description := r.FormValue "description"
          Author := { ID := 2, Name := "" }
          Category := { ID := (strconv.Atoi (r.FormValue "category")).1, Name := "" }
          Dificulty := { ID := (strconv.Atoi (r.FormValue "difficulty")).1, Name := "" }
          Rating := schema.rating s
          PreparationTime := (strconv.Atoi (r.FormValue "preparation-time")).1
          Serving := r.FormValue "serving"
          Ingredients := strings.Split (r.FormValue "ingredients") '|'
          Steps := strings.Split (r.FormValue "steps") '|'
          AccessCount := schema.accessCount s
          ImageURL := r.FormValue "imgURL"
          PublishedDate := formatDate (schema.publishedDate s) }, none) := by
  obtain ⟨rfl, hfresh, rfl⟩ := store.InsertRecipe_accepted schema r s s1 id h
  exact store.FetchRecipe_newRecord schema r s _
    (by
      have : (s.set "recipe" (s.tables "recipe" ++ [store.newRecord schema r s])).tables
          "recipe" = s.tables "recipe" ++ [store.newRecord schema r s] := by
        simp [store.Store.set]
      rw [this]
      have hc : store.column (store.newRecord schema r s) "id" = .int (schema.nextId s) := rfl
      exact store.find_last _ _ _ hfresh (by simp [store.hasId, hc]))

/-- The pancake recipe inserted into the empty sample store gets the id 1 and is read back
field by field. -/
theorem insert_then_fetch_roundtrip_witness :
    InsertRecipe (store.db store.sampleSchema) store.sampleRequest store.empty =
      ((1, none), store.sampleState) ∧
    (FetchRecipe (store.db store.sampleSchema) 1 store.sampleState).1 =
      (some
        { ID := 1
          Title := "Pancakes"
          Description := "Thin ones"
          Author := { ID := 2, Name := "" }
          Category := { ID := 3, Name := "" }
          Dificulty := { ID := 1, Name := "" }
          Rating := 0
          PreparationTime := 20
          Serving := "4 people"
          Ingredients := ["eggs", "flour", "milk"]
          Steps := ["mix", "fry"]
          AccessCount := 0
          ImageURL := "http://img/p.png"
          PublishedDate := "02/Jan/2021" }, none) :=
  ⟨rfl,
   insert_then_fetch_roundtrip store.sampleSchema store.sampleRequest store.empty
     store.sampleState 1 rfl⟩

end repository

namespace repository

open sql domain

/-- The method `InsertRecipe` consults the store once, with its `INSERT` and the arguments made from
the form, and returns what the `Scan` of the answer gives; nothing else decides its
result. -/
theorem InsertRecipe_eq {σ : Type} (db : DB σ) (r : Request) (st : σ) :
    InsertRecipe db r st =
      (match scanId (db.QueryRow insertRecipeStatement (insertRecipeArgs r) st).1 with
        | .ok id => (id, none)
        | .error e => (0, some e),
       (db.QueryRow insertRecipeStatement (insertRecipeArgs r) st).2) := by
  unfold InsertRecipe
  cases db.QueryRow insertRecipeStatement (insertRecipeArgs r) st with
  | mk row st1 =>
    simp only
    cases scanId row <;> rfl

/-- C7, counterexample: the `category` field `"9223372036854775808"` is rejected by `Atoi`
as out of range, and the value bound to `category_id` is `9223372036854775807`, not `0`. -/
theorem out_of_range_field_is_not_bound_to_zero :
    (strconv.Atoi (store.overflowRequest.FormValue "category")).2 = some .ErrRange ∧
    boundTo insertRecipeColumns (insertRecipeArgs store.overflowRequest) "category_id" =
      some (.int 9223372036854775807) ∧
    boundTo insertRecipeColumns (insertRecipeArgs store.overflowRequest) "category_id" ≠
      some (.int 0) := by
  decide

/-- C7, amended: the value bound for each numeric form field is the value `Atoi` returns
with its error dropped, and the result of `InsertRecipe` and of `UpdateRecipe` is the
store's answer to the statement with these arguments, whatever `Atoi` reported.  `Atoi`
is `spec.atoiResult`: on a syntax error (nothing after the sign, or a byte that is not a
digit after leading digits denoting less than `2^64`) the value is 0; on a range error it
is `-2^63` under a minus sign and `2^63 - 1` otherwise; on an optionally signed string of
digits denoting `v` it is the integer of `-2^63 .. 2^63 - 1` nearest to `v`, with a range
error exactly when `v` lies outside; on every other string `Atoi` reports an error. -/
theorem unparseable_field_binding {σ : Type} (db : DB σ) (r : Request) (id : Int) (st : σ) :
    (∀ key col, (key, col) ∈ [("category", "category_id"), ("difficulty", "dificulty_id"),
        ("preparation-time", "preparation_time")] →
      boundTo insertRecipeColumns (insertRecipeArgs r) col =
        some (.int (strconv.Atoi (r.FormValue key)).1)) ∧
    boundTo updateRecipeColumns (updateRecipeArgs r id).tail "preparation_time" =
      some (.int (strconv.Atoi (r.FormValue "preparation-time")).1) ∧
    (InsertRecipe db r st).1.2 =
      spec.errorOf (scanId (db.QueryRow insertRecipeStatement (insertRecipeArgs r) st).1) ∧
    UpdateRecipe db r id st = db.Exec updateRecipeStatement (updateRecipeArgs r id) st ∧
    (∀ s, strconv.Atoi s = spec.atoiResult s) ∧
    (∀ s, (strconv.Atoi s).2 = some .ErrSyntax → (strconv.Atoi s).1 = 0) ∧
    (∀ s, (strconv.Atoi s).2 = some .ErrSyntax ↔
      spec.unsigned s = [] ∨
        ((spec.unsigned s).takeWhile strconv.isDigit ≠ spec.unsigned s ∧
          spec.digitsValue ((spec.unsigned s).takeWhile strconv.isDigit) <
            18446744073709551616)) ∧
    (∀ s, (strconv.Atoi s).2 = some .ErrRange →
      (strconv.Atoi s).1 =
        if spec.negative s then -9223372036854775808 else 9223372036854775807) ∧
    (∀ s v, spec.decimalValue s = some v →
      strconv.Atoi s = (spec.nearestInt64 v,
        if -9223372036854775808 ≤ v ∧ v ≤ 9223372036854775807 then none
        else some .ErrRange)) ∧
    (∀ s, spec.decimalValue s = none → (strconv.Atoi s).2 ≠ none) ∧
    strconv.Atoi "" = (0, some .ErrSyntax) ∧ strconv.Atoi "-" = (0, some .ErrSyntax) ∧
    strconv.Atoi "12a" = (0, some .ErrSyntax) ∧
    strconv.Atoi "9223372036854775808" = (9223372036854775807, some .ErrRange) ∧
    strconv.Atoi "+9223372036854775808" = (9223372036854775807, some .ErrRange) ∧
    strconv.Atoi "-9223372036854775809" = (-9223372036854775808, some .ErrRange) := by
  refine ⟨?_, rfl, ?_, rfl, strconv.Atoi_eq_atoiResult,
    fun s h => ((strconv.Atoi_error s (strconv.Atoi s).1 .ErrSyntax (by rw [← h])).1 rfl),
    strconv.Atoi_syntax_iff, strconv.Atoi_range_value, strconv.Atoi_decimal,
    strconv.Atoi_not_decimal, by decide, by decide, by decide, by decide, by decide,
    by decide⟩
  · intro k col hmem
    simp only [List.mem_cons, Prod.mk.injEq, List.mem_singleton, List.not_mem_nil,
      or_false] at hmem
    rcases hmem with ⟨rfl, rfl⟩ | ⟨rfl, rfl⟩ | ⟨rfl, rfl⟩ <;> rfl
  · rw [InsertRecipe_eq]
    cases scanId (db.QueryRow insertRecipeStatement (insertRecipeArgs r) st).1 <;> rfl

/-- A failed `Query` ends the process. -/
theorem fetchList_query_failure {σ α : Type} (db : DB σ) (stmt : Stmt) (args : List Value)
    (scan : Row → Except Error α) (st st1 : σ) (e : Error)
    (h : db.Query stmt args st = (.error e, st1)) :
    (fetchList db stmt args scan st).1 = .fatal e := by
  unfold fetchList
  rw [h]

/-- A row that `Scan` fails on ends the process, whatever was scanned before it. -/
theorem scanLoop_scan_failure {α : Type} (scan : Row → Except Error α)
    (before : List (List Value)) (cols : List Value) (after : List (List Value)) (e : Error)
    (hb : ∀ c ∈ before, ∃ item, scan (.ok c) = .ok item) (h : scan (.ok cols) = .error e) :
    ∀ acc, scanLoop scan (before ++ cols :: after) acc = .fatal e := by
  induction before with
  | nil => intro acc; simp [scanLoop, h]
  | cons c rest ih =>
    intro acc
    obtain ⟨item, hi⟩ := hb c (by simp)
    simp only [List.cons_append, scanLoop, hi]
    exact ih (fun c hc => hb c (by simp [hc])) _

/-- The list methods do not look at the error `Next` stopped on: with the rows `Next`
delivered all scanned, the list is returned with a `nil` error whether the result set
ended or `Next` failed. -/
theorem fetchList_ignores_Next_failure {σ α : Type} (db : DB σ) (stmt : Stmt)
    (args : List Value) (scan : Row → Except Error α) (st st1 : σ) (rows : Rows) (list : List α)
    (h : db.Query stmt args st = (.ok rows, st1))
    (hl : scanLoop scan rows.items [] = .returned list) :
    (fetchList db stmt args scan st).1 = .returned (list, none) := by
  unfold fetchList
  rw [h]
  simp only [hl]

/-- C8, the code at the failing input: when `Next` fails after the first row has been
read, `FetchCategories`, `FetchDifficulties` and `FetchRecipePreviews` do not end the
process; each returns the one row read so far together with a `nil` error. -/
theorem list_operations_return_after_Next_failure :
    (FetchCategories
      (spec.interrupted [[.int 1, .text "Dessert"]] (.other "driver: bad connection")) ()).1 =
      .returned ([{ ID := 1, Name := "Dessert" }], none) ∧
    (FetchDifficulties
      (spec.interrupted [[.int 1, .text "Easy"]] (.other "driver: bad connection")) ()).1 =
      .returned ([{ ID := 1, Name := "Easy" }], none) ∧
    (FetchRecipePreviews
      (spec.interrupted [[.int 1, .text "Pancakes", .text "Thin ones"]]
        (.other "driver: bad connection")) store.bareRequest ()).1 =
      .returned ([{ ID := 1, Title := "Pancakes", Description := "Thin ones" }], none) := by
  decide

/-- C9: whatever the request, the value `InsertRecipe` binds to the column `author_id` is
the integer 2, so any two requests are inserted with the same author id; and the
statement with these arguments is all `InsertRecipe` sends to the store. -/
theorem InsertRecipe_author_id_is_constant (r r2 : Request) :
    boundTo insertRecipeColumns (insertRecipeArgs r) "author_id" = some (.int 2) ∧
    boundTo insertRecipeColumns (insertRecipeArgs r) "author_id" =
      boundTo insertRecipeColumns (insertRecipeArgs r2) "author_id" ∧
    ∀ (σ : Type) (db : DB σ) (st : σ),
      InsertRecipe db r st =
        (match scanId (db.QueryRow (.insertReturningId "recipe" insertRecipeColumns)
            (insertRecipeArgs r) st).1 with
          | .ok id => (id, none)
          | .error e => (0, some e),
         (db.QueryRow (.insertReturningId "recipe" insertRecipeColumns)
            (insertRecipeArgs r) st).2) :=
  ⟨rfl, rfl, fun _ db st => InsertRecipe_eq db r st⟩

/-- C10: for every row that the `Scan` of `FetchRecipe` reads successfully, `FetchRecipe`
returns a record whose `Ingredients` and `Steps` are not empty; a stored empty text is
read as the one-element list `[""]`; and the empty list does not survive joining with `|`
and splitting: it comes back as `[""]`. -/
theorem FetchRecipe_lists_never_empty {σ : Type} (db : DB σ) (recipeID : Int) (st : σ)
    (d : RecipeDest)
    (h : scanRecipe (db.QueryRow fetchRecipeStatement [.int recipeID] st).1 = .ok d) :
    ∃ recipe cols c9 c10,
      (FetchRecipe db recipeID st).1 = (some recipe, none) ∧
      (db.QueryRow fetchRecipeStatement [.int recipeID] st).1 = .ok cols ∧
      cols.get? 9 = some c9 ∧ cols.get? 10 = some c10 ∧
      recipe.Ingredients ≠ [] ∧ recipe.Steps ≠ [] ∧
      (c9 = .text "" → recipe.Ingredients = [""]) ∧
      (c10 = .text "" → recipe.Steps = [""]) ∧
      strings.Split (strings.Join [] '|') '|' = [""] ∧
      strings.Split (strings.Join [] '|') '|' ≠ [] := by
  obtain ⟨cols, c9, c10, hrow, h9, h10, -, hc9, hc10⟩ := scanRecipe_columns _ d h
  refine ⟨_, cols, c9, c10, FetchRecipe_scanned db recipeID st d h, hrow, h9, h10,
    strings.Split_ne_nil _ _, strings.Split_ne_nil _ _, ?_, ?_, by decide, by decide⟩
  · intro e
    simp only [convertString_text c9 "" _ hc9 e]
    decide
  · intro e
    simp only [convertString_text c10 "" _ hc10 e]
    decide

/-- A recipe inserted without ingredients and without steps is fetched with one empty
ingredient and one empty step. -/
theorem FetchRecipe_lists_never_empty_witness :
    scanRecipe ((store.db store.sampleSchema).QueryRow fetchRecipeStatement [.int 1]
      store.bareState).1 = .ok store.bareDest ∧
    ((FetchRecipe (store.db store.sampleSchema) 1 store.bareState).1.1.map
      (fun recipe => (recipe.Ingredients, recipe.Steps))) = some ([""], [""]) := by
  refine ⟨rfl, ?_⟩
  obtain ⟨recipe, cols, c9, c10, hf, hrow, h9, h10, -, -, hi, hs, -⟩ :=
    FetchRecipe_lists_never_empty (store.db store.sampleSchema) 1 store.bareState
      store.bareDest rfl
  have hcols : cols = [.int 1, .text "", .text "", .int 2, .int 0, .int 0, .int 0, .int 0,
      .text "", .text "", .text "", .int 0, .text "",
      .time { year := 2021, month := 1, day := 2, hour := 0, minute := 0, second := 0,
              offset := 0 }] := by
    have hq : ((store.db store.sampleSchema).QueryRow fetchRecipeStatement [.int 1]
        store.bareState).1 = .ok [.int 1, .text "", .text "", .int 2, .int 0, .int 0, .int 0,
          .int 0, .text "", .text "", .text "", .int 0, .text "",
          .time { year := 2021, month := 1, day := 2, hour := 0, minute := 0, second := 0,
                  offset := 0 }] := rfl
    rw [hq] at hrow
    exact (Except.ok.inj hrow).symm
  subst hcols
  simp only [List.get?, Option.some.injEq] at h9 h10
  rw [hf]
  simp only [Option.map, hi h9.symm, hs h10.symm]

end repository

